import Mathlib

/-!
Verification of the XShaderCompiler core against its specification.

The definitions in this file are a shallow embedding of the compiler
pipeline fragments referenced by the claims: the HLSL parser's
symbol-table-aware cast disambiguation and statement disambiguation
(HLSLParser.cpp), the context analyzer's intrinsic-overload upgrade,
semantic remapping, entry-point marking and buffer-slot validation
(HLSLAnalyzer), the constant-expression evaluator
(ConstExprEvaluator.cpp) and the top-level compile driver (Xsc.cpp).

Machine integers are modelled as Int with explicit two's-complement
wrapping; fallible code returns Except; the token stream is a list and
recursion over it is fuel-bounded.
-/

set_option maxHeartbeats 1600000

namespace Xsc

/-! ## Tokens (Token.h)

The token-type enumeration, restricted to the token classes exercised by
the verified claims (texture/sampler/buffer/template and preprocessor
token classes are outside the modelled subset; no verified claim touches
a production that consumes them).
-/

inductive TokenType where
  | ident
  | boolLiteral
  | intLiteral
  | floatLiteral
  | stringLiteral
  | assignOp
  | binaryOp
  | unaryOp
  | ternaryOp
  | dot
  | colon
  | semicolon
  | comma
  | lBracket      -- (
  | rBracket      -- )
  | lCurly
  | rCurly
  | lParen        -- [
  | rParen        -- ]
  | stringType
  | scalarType
  | vectorType
  | matrixType
  | voidType
  | doKw
  | whileKw
  | forKw
  | ifKw
  | elseKw
  | switchKw
  | caseKw
  | defaultKw
  | typedefKw
  | structKw
  | registerKw
  | packOffsetKw
  | ctrlTransfer
  | returnKw
  | inputModifier
  | storageClass
  | typeModifier
  | endOfStream
  deriving DecidableEq, Repr

structure Token where
  type  : TokenType
  spell : String
  deriving DecidableEq, Repr

/-! ## Basic enumerations of the data model -/

inductive DataType where
  | undefined
  | boolT
  | intT
  | uintT
  | halfT
  | floatT
  | doubleT
  | stringT
  | float4
  | float4x4
  deriving DecidableEq, Repr

inductive BinaryOp where
  | undefined
  | logicalAnd
  | logicalOr
  | or
  | xor
  | and
  | lShift
  | rShift
  | add
  | sub
  | mul
  | div
  | mod
  | equal
  | notEqual
  | less
  | greater
  | lessEqual
  | greaterEqual
  deriving DecidableEq, Repr

inductive UnaryOp where
  | undefined
  | logicalNot
  | not
  | nop
  | negate
  | inc
  | dec
  deriving DecidableEq, Repr

inductive AssignOp where
  | undefined
  | set
  | add
  | sub
  | mul
  | div
  | mod
  | lShift
  | rShift
  | or
  | and
  | xor
  deriving DecidableEq, Repr

/-- Modelled from the spec: the keyword-to-operator mappings live in the
AST helpers that are not under src/; the mapping below follows the
operator spellings listed for the token classes in Token.h. -/
def stringToBinaryOp (s : String) : BinaryOp :=
  if s = "&&" then .logicalAnd
  else if s = "||" then .logicalOr
  else if s = "|" then .or
  else if s = "^" then .xor
  else if s = "&" then .and
  else if s = "<<" then .lShift
  else if s = ">>" then .rShift
  else if s = "+" then .add
  else if s = "-" then .sub
  else if s = "*" then .mul
  else if s = "/" then .div
  else if s = "%" then .mod
  else if s = "==" then .equal
  else if s = "!=" then .notEqual
  else if s = "<" then .less
  else if s = ">" then .greater
  else if s = "<=" then .lessEqual
  else if s = ">=" then .greaterEqual
  else .undefined

/-- Modelled from the spec: see stringToBinaryOp. -/
def stringToUnaryOp (s : String) : UnaryOp :=
  if s = "!" then .logicalNot
  else if s = "~" then .not
  else if s = "+" then .nop
  else if s = "-" then .negate
  else if s = "++" then .inc
  else if s = "--" then .dec
  else .undefined

/-- Modelled from the spec: see stringToBinaryOp. -/
def stringToAssignOp (s : String) : AssignOp :=
  if s = "=" then .set
  else if s = "+=" then .add
  else if s = "-=" then .sub
  else if s = "*=" then .mul
  else if s = "/=" then .div
  else if s = "%=" then .mod
  else if s = "<<=" then .lShift
  else if s = ">>=" then .rShift
  else if s = "|=" then .or
  else if s = "&=" then .and
  else if s = "^=" then .xor
  else .undefined

inductive CtrlTransfer where
  | undefined
  | breakCtrl
  | continueCtrl
  | discardCtrl
  deriving DecidableEq, Repr

/-- Modelled from the spec: control-transfer keyword mapping. -/
def stringToCtrlTransfer (s : String) : CtrlTransfer :=
  if s = "break" then .breakCtrl
  else if s = "continue" then .continueCtrl
  else if s = "discard" then .discardCtrl
  else .undefined

inductive ShaderTarget where
  | undefined
  | vertexShader
  | fragmentShader
  | geometryShader
  | tessellationControlShader
  | tessellationEvaluationShader
  | computeShader
  deriving DecidableEq, Repr

/-- Semantic enumeration; the verified claims only distinguish the
system-value position semantic, its vertex remap target, and
user-defined semantics. -/
inductive Semantic where
  | undefined
  | position
  | vertexPosition
  | userDefined (s : String)
  deriving DecidableEq, Repr

/-- IndexedSemantic: a semantic together with its index. -/
structure IndexedSemantic where
  sem   : Semantic
  index : Nat
  deriving DecidableEq, Repr

inductive RegisterType where
  | undefined
  | constantBuffer
  | textureBuffer
  | samplerT
  | unorderedAccess
  deriving DecidableEq, Repr

/-- Modelled from the spec: register classes (glossary: t textures,
s samplers, b constant buffers, u unordered-access). -/
def charToRegisterType (c : Char) : RegisterType :=
  if c = 'b' then .constantBuffer
  else if c = 't' then .textureBuffer
  else if c = 's' then .samplerT
  else if c = 'u' then .unorderedAccess
  else .undefined

/-! ## String-to-number conversions (Helper.h FromString, modelled) -/

/-- Modelled from the spec: FromString for integers reads a leading run
of decimal digits (the scanner only produces digit runs for integer
literals). -/
def fromStringNat (s : String) : Nat :=
  (s.toList.takeWhile Char.isDigit).foldl (fun acc c => acc * 10 + (c.toNat - 48)) 0

/-- Modelled from the spec: FromString for signed integers. -/
def fromStringInt (s : String) : Int :=
  if s.toList.head? = some '-' then
    - (fromStringNat (s.drop 1) : Int)
  else
    (fromStringNat s : Int)

/-- Modelled from the spec: FromString for reals (double modelled as an
exact rational; float literals are digits, a dot and digits per §4.A). -/
def fromStringRat (s : String) : ℚ :=
  match s.splitOn "." with
  | [a] => (fromStringNat a : ℚ)
  | [a, b] =>
      let fracDigits := b.toList.takeWhile Char.isDigit
      (fromStringNat a : ℚ) + (fromStringNat b : ℚ) / ((10 : ℚ) ^ fracDigits.length)
  | _ => 0

/-! ## AST node hierarchy (AST.h data model, §3)

Node kinds restricted to the statement/expression/declaration subset the
claims exercise; source areas and flag bit-sets are omitted except where
a claim is about them.
-/

structure PackOffset where
  registerName    : String
  vectorComponent : String
  deriving DecidableEq, Repr

structure Register where
  shaderTarget : ShaderTarget
  registerType : RegisterType
  slot         : Int
  deriving DecidableEq, Repr

mutual

inductive TypeDenoter where
  | voidTD
  | base (dataType : DataType)
  | structTD (ident : String) (declRef : Option StructDecl)
  | alias (ident : String)
  | array (baseTypeDenoter : TypeDenoter) (arrayDims : List Expr)

inductive VarIdent where
  | mk (ident : String) (arrayIndices : List Expr) (next : Option VarIdent)

inductive FunctionCall where
  | mk (varIdent : Option VarIdent) (typeDenoter : Option TypeDenoter) (arguments : List Expr)

inductive Expr where
  | nullExpr
  | listExpr (firstExpr nextExpr : Expr)
  | literal (dataType : DataType) (value : String)
  | typeName (typeDenoter : TypeDenoter)
  | ternary (condExpr thenExpr elseExpr : Expr)
  | binary (op : BinaryOp) (lhsExpr rhsExpr : Expr)
  | unary (op : UnaryOp) (expr : Expr)
  | postUnary (expr : Expr) (op : UnaryOp)
  | functionCallExpr (call : FunctionCall)
  | bracket (expr : Expr)
  | suffix (expr : Expr) (varIdent : VarIdent)
  | arrayAccess (expr : Expr) (arrayIndices : List Expr)
  | cast (typeExpr : Expr) (expr : Expr)
  | varAccess (varIdent : VarIdent) (assignOp : Option AssignOp) (assignExpr : Option Expr)
  | initializer (exprs : List Expr)

inductive VarType where
  | mk (structDecl : Option StructDecl) (typeDenoter : TypeDenoter)

inductive VarDecl where
  | mk (ident : String) (arrayDims : List Expr) (packOffset : Option PackOffset)
      (semantic : Option IndexedSemantic) (annots : List Stmnt) (initExpr : Option Expr)

inductive AliasDecl where
  | mk (ident : String) (typeDenoter : TypeDenoter)

inductive StructDecl where
  | mk (ident : String) (baseStructName : String) (members : List Stmnt)

inductive Attrib where
  | mk (ident : String) (arguments : List Expr)

inductive SwitchCase where
  | mk (expr : Option Expr) (stmnts : List Stmnt)

inductive Stmnt where
  | nullStmnt
  | codeBlockStmnt (stmnts : List Stmnt)
  | forLoopStmnt (attribs : List Attrib) (initSmnt : Stmnt)
      (condition iteration : Option Expr) (bodyStmnt : Stmnt)
  | whileLoopStmnt (attribs : List Attrib) (condition : Expr) (bodyStmnt : Stmnt)
  | doWhileLoopStmnt (attribs : List Attrib) (bodyStmnt : Stmnt) (condition : Expr)
  | ifStmnt (attribs : List Attrib) (condition : Expr) (bodyStmnt : Stmnt)
      (elseStmnt : Option Stmnt)
  | elseStmnt (bodyStmnt : Stmnt)
  | switchStmnt (attribs : List Attrib) (selector : Expr) (cases : List SwitchCase)
  | ctrlTransferStmnt (transfer : CtrlTransfer)
  | returnStmnt (expr : Option Expr)
  | exprStmnt (expr : Expr)
  | varDeclStmnt (storageClasses : List String) (typeModifiers : List String)
      (inputMod : Option String) (varType : Option VarType) (varDecls : List VarDecl)
  | structDeclStmnt (structDecl : StructDecl)
  | aliasDeclStmnt (structDecl : Option StructDecl) (aliasDecls : List AliasDecl)

end

def VarIdent.ident : VarIdent → String
  | .mk i _ _ => i

def VarIdent.arrayIndices : VarIdent → List Expr
  | .mk _ a _ => a

def VarIdent.next : VarIdent → Option VarIdent
  | .mk _ _ n => n

/-! ## Variant (§4.F)

The boxed numeric variant of the const-expression evaluator.
-/

/-- Modelled from the spec: Variant (its header is not under src/) is a
tagged Bool or Int or Real value; IntType is the underlying 64-bit
integer and RealType the underlying double, modelled here as Int with
explicit two's-complement wrapping and as an exact rational. -/
inductive Variant where
  | boolV (b : Bool)
  | intV (i : Int)
  | realV (r : ℚ)
  deriving DecidableEq, Repr

/-- Two's-complement wrap of a mathematical integer into the signed
64-bit range. -/
def wrap64 (i : Int) : Int :=
  (i + 2 ^ 63) % 2 ^ 64 - 2 ^ 63

/-- Truncation of a rational toward zero (the C cast from double to a
64-bit integer). -/
def ratTrunc (r : ℚ) : Int :=
  if 0 ≤ r then ⌊r⌋ else ⌈r⌉

def Variant.toBool : Variant → Bool
  | .boolV b => b
  | .intV i => i ≠ 0
  | .realV r => r ≠ 0

def Variant.toInt : Variant → Int
  | .boolV b => if b then 1 else 0
  | .intV i => i
  | .realV r => ratTrunc r

def Variant.toReal : Variant → ℚ
  | .boolV b => if b then 1 else 0
  | .intV i => (i : ℚ)
  | .realV r => r

def Variant.isReal : Variant → Bool
  | .realV _ => true
  | _ => false

/-- Message used when a divisor of a constant expression is zero.
Modelled from the spec: division by zero reports an error (§4.F). -/
def divisionByZeroMsg : String := "division by zero in constant expression"

/-- A variant whose promoted numeric value is zero (the divisor
condition of the division-by-zero rule). -/
def variantIsZero : Variant → Bool
  | .boolV b => !b
  | .intV i => i = 0
  | .realV r => r = 0

/-- Modelled from the spec: arithmetic on the variant promotes to Real
when either operand is Real, otherwise operates on the 64-bit integers
(overflow wraps, §4.F). -/
def variantArith (fInt : Int → Int → Int) (fReal : ℚ → ℚ → ℚ) (a b : Variant) : Variant :=
  if a.isReal || b.isReal then
    .realV (fReal a.toReal b.toReal)
  else
    .intV (wrap64 (fInt a.toInt b.toInt))

def variantAdd : Variant → Variant → Variant := variantArith (· + ·) (· + ·)

def variantSub : Variant → Variant → Variant := variantArith (· - ·) (· - ·)

def variantMul : Variant → Variant → Variant := variantArith (· * ·) (· * ·)

/-- Modelled from the spec: division by zero reports an error; otherwise
the quotient follows the underlying 64-bit integer (truncating division)
or real semantics (§4.F). -/
def variantDiv (a b : Variant) : Except String Variant :=
  if a.isReal || b.isReal then
    if b.toReal = 0 then .error divisionByZeroMsg
    else .ok (.realV (a.toReal / b.toReal))
  else
    if b.toInt = 0 then .error divisionByZeroMsg
    else .ok (.intV (wrap64 (Int.tdiv a.toInt b.toInt)))

/-- Modelled from the spec: remainder with a zero divisor reports an
error; the integer remainder follows the 64-bit truncating remainder and
the real remainder the fmod rule. -/
def variantMod (a b : Variant) : Except String Variant :=
  if a.isReal || b.isReal then
    if b.toReal = 0 then .error divisionByZeroMsg
    else .ok (.realV (a.toReal - (ratTrunc (a.toReal / b.toReal) : ℚ) * b.toReal))
  else
    if b.toInt = 0 then .error divisionByZeroMsg
    else .ok (.intV (wrap64 (Int.tmod a.toInt b.toInt)))

/-- The unsigned 64-bit representative of a signed 64-bit value. -/
def toU64 (i : Int) : Nat := (i % 2 ^ 64).toNat

/-- Bitwise and on the two's-complement representations. -/
def intAnd64 (a b : Int) : Int := wrap64 (Nat.land (toU64 a) (toU64 b) : Nat)

/-- Bitwise or on the two's-complement representations. -/
def intOr64 (a b : Int) : Int := wrap64 (Nat.lor (toU64 a) (toU64 b) : Nat)

/-- Bitwise xor on the two's-complement representations. -/
def intXor64 (a b : Int) : Int := wrap64 (Nat.xor (toU64 a) (toU64 b) : Nat)

/-- Modelled from the spec: bitwise operations act on the integer views. -/
def variantBitwise (f : Int → Int → Int) (a b : Variant) : Variant :=
  .intV (wrap64 (f a.toInt b.toInt))

def variantShiftLeft : Variant → Variant → Variant :=
  variantBitwise (fun x n => x * 2 ^ n.toNat)

def variantShiftRight : Variant → Variant → Variant :=
  variantBitwise (fun x n => Int.tdiv x (2 ^ n.toNat))

/-- Modelled from the spec: comparisons compare the promoted values. -/
def variantCompare (fInt : Int → Int → Bool) (fReal : ℚ → ℚ → Bool) (a b : Variant) : Variant :=
  if a.isReal || b.isReal then
    .boolV (fReal a.toReal b.toReal)
  else
    .boolV (fInt a.toInt b.toInt)

/-! ## Const-expression evaluator (ConstExprEvaluator.cpp)

The evaluator is a stack machine: each visited expression pushes its
value; Pop on an empty stack reports a stack underflow.  Exceptions for
illegal sub-expressions are modelled by Except.
-/

abbrev OnVarAccessCallback := VarIdent → Except String Variant

def illegalExprMsg (exprName : String) : String :=
  "illegal " ++ exprName ++ " in constant expression"

def stackUnderflowMsg : String := "stack underflow in expression evaluator"

abbrev VariantStack := List Variant

def evalPop : VariantStack → Except String (Variant × VariantStack)
  | [] => .error stackUnderflowMsg
  | v :: st => .ok (v, st)

/-- VisitLiteralExpr: the literal value pushed per its data type. -/
def literalVariant (dataType : DataType) (value : String) : Except String Variant :=
  match dataType with
  | .boolT =>
      if value = "true" then .ok (.boolV true)
      else if value = "false" then .ok (.boolV false)
      else .error (illegalExprMsg ("boolean literal value " ++ value))
  | .intT => .ok (.intV (fromStringInt value))
  | .uintT => .ok (.intV ((fromStringNat value % 2 ^ 32 : Nat) : Int))
  | .halfT => .ok (.realV (fromStringRat value))
  | .floatT => .ok (.realV (fromStringRat value))
  | .doubleT => .ok (.realV (fromStringRat value))
  | _ => .error (illegalExprMsg "literal type")

/-- VisitBinaryExpr: the operator dispatch after both operands are
popped (rhs first, then lhs). -/
def evalBinaryOp (op : BinaryOp) (lhs rhs : Variant) : Except String Variant :=
  match op with
  | .undefined => .error (illegalExprMsg "binary operator")
  | .logicalAnd => .ok (.boolV (lhs.toBool && rhs.toBool))
  | .logicalOr => .ok (.boolV (lhs.toBool || rhs.toBool))
  | .or => .ok (variantBitwise intOr64 lhs rhs)
  | .xor => .ok (variantBitwise intXor64 lhs rhs)
  | .and => .ok (variantBitwise intAnd64 lhs rhs)
  | .lShift => .ok (variantShiftLeft lhs rhs)
  | .rShift => .ok (variantShiftRight lhs rhs)
  | .add => .ok (variantAdd lhs rhs)
  | .sub => .ok (variantSub lhs rhs)
  | .mul => .ok (variantMul lhs rhs)
  | .div => variantDiv lhs rhs
  | .mod => variantMod lhs rhs
  | .equal => .ok (variantCompare (· = ·) (· = ·) lhs rhs)
  | .notEqual => .ok (variantCompare (· ≠ ·) (· ≠ ·) lhs rhs)
  | .less => .ok (variantCompare (· < ·) (· < ·) lhs rhs)
  | .greater => .ok (variantCompare (fun x y => y < x) (fun x y => y < x) lhs rhs)
  | .lessEqual => .ok (variantCompare (· ≤ ·) (· ≤ ·) lhs rhs)
  | .greaterEqual => .ok (variantCompare (fun x y => y ≤ x) (fun x y => y ≤ x) lhs rhs)

/-- VisitUnaryExpr: the operator dispatch after the operand is popped. -/
def evalUnaryOp (op : UnaryOp) (rhs : Variant) : Except String Variant :=
  match op with
  | .undefined => .error (illegalExprMsg "unary operator")
  | .logicalNot => .ok (.boolV (! rhs.toBool))
  | .not => .ok (.intV (wrap64 (- rhs.toInt - 1)))
  | .nop => .ok rhs
  | .negate =>
      if rhs.isReal then .ok (.realV (- rhs.toReal))
      else .ok (.intV (wrap64 (- rhs.toInt)))
  | .inc => .ok (variantAdd rhs (.intV 1))
  | .dec => .ok (variantSub rhs (.intV 1))

mutual

/-- The visitor of ConstExprEvaluator.cpp as a stack machine step: visits
one expression, returning the updated variant stack. Unimplemented node
kinds (suffix, array access) fall back to the default child traversal of
Visitor.cpp. -/
def visitE (cb : OnVarAccessCallback) : Expr → VariantStack → Except String VariantStack
  | .nullExpr, _ => .error (illegalExprMsg "dynamic array dimension")
  | .listExpr firstExpr _, st => visitE cb firstExpr st
  | .literal dataType value, st => do
      let v ← literalVariant dataType value
      .ok (v :: st)
  | .typeName _, _ => .error (illegalExprMsg "type specifier")
  | .ternary condExpr thenExpr elseExpr, st => do
      let st1 ← visitE cb condExpr st
      let (cond, st2) ← evalPop st1
      if cond.toBool then visitE cb thenExpr st2 else visitE cb elseExpr st2
  | .binary op lhsExpr rhsExpr, st => do
      let st1 ← visitE cb lhsExpr st
      let st2 ← visitE cb rhsExpr st1
      let (rhs, st3) ← evalPop st2
      let (lhs, st4) ← evalPop st3
      let v ← evalBinaryOp op lhs rhs
      .ok (v :: st4)
  | .unary op expr, st => do
      let st1 ← visitE cb expr st
      let (rhs, st2) ← evalPop st1
      let v ← evalUnaryOp op rhs
      .ok (v :: st2)
  | .postUnary expr op, st => do
      let st1 ← visitE cb expr st
      let (lhs, st2) ← evalPop st1
      match op with
      | .inc => .ok (lhs :: st2)
      | .dec => .ok (lhs :: st2)
      | _ => .error (illegalExprMsg "unary operator")
  | .functionCallExpr _, _ => .error (illegalExprMsg "function call")
  | .bracket expr, st => visitE cb expr st
  | .suffix expr varIdent, st => do
      let st1 ← visitE cb expr st
      visitVarIdentDefault cb varIdent st1
  | .arrayAccess expr arrayIndices, st => do
      let st1 ← visitE cb expr st
      visitEList cb arrayIndices st1
  | .cast _ expr, st => visitE cb expr st
  | .varAccess varIdent _ _, st => do
      let v ← cb varIdent
      .ok (v :: st)
  | .initializer _, _ => .error (illegalExprMsg "initializer list")

/-- Default traversal of an expression list (Visitor.cpp). -/
def visitEList (cb : OnVarAccessCallback) : List Expr → VariantStack → Except String VariantStack
  | [], st => .ok st
  | e :: es, st => do
      let st1 ← visitE cb e st
      visitEList cb es st1

/-- Default traversal of a VarIdent (Visitor.cpp): array indices, then
the next identifier. -/
def visitVarIdentDefault (cb : OnVarAccessCallback) : VarIdent → VariantStack → Except String VariantStack
  | .mk _ arrayIndices next, st => do
      let st1 ← visitEList cb arrayIndices st
      match next with
      | some n => visitVarIdentDefault cb n st1
      | none => .ok st1

end

/-- ConstExprEvaluator::EvaluateExpr: visit the expression on an empty
stack and pop the result. -/
def evaluateExpr (cb : OnVarAccessCallback) (ast : Expr) : Except String Variant := do
  let st ← visitE cb ast []
  let (v, _) ← evalPop st
  .ok v

/-! ## Intrinsic overload upgrade (HLSLAnalyzer::AnalyzeFunctionCallIntrinsic) -/

/-- The intrinsic id enumeration, restricted to the ids appearing in the
overload-conversion table plus a representative for all remaining ids. -/
inductive Intrinsic where
  | asUInt_1
  | asUInt_3
  | tex1D_2
  | tex1D_4
  | tex2D_2
  | tex2D_4
  | tex3D_2
  | tex3D_4
  | texCube_2
  | texCube_4
  | texture_Load_1
  | texture_Load_2
  | texture_Load_3
  | texture_Sample_2
  | texture_Sample_3
  | texture_Sample_4
  | texture_Sample_5
  | texture_SampleBias_3
  | texture_SampleBias_4
  | texture_SampleBias_5
  | texture_SampleBias_6
  | texture_SampleCmp_3
  | texture_SampleCmp_4
  | texture_SampleCmp_5
  | texture_SampleCmp_6
  | texture_SampleGrad_4
  | texture_SampleGrad_5
  | texture_SampleGrad_6
  | texture_SampleGrad_7
  | texture_SampleLevel_3
  | texture_SampleLevel_4
  | texture_SampleLevel_5
  | clip
  | otherIntrinsic (name : String)
  deriving DecidableEq, Repr

structure IntrinsicConversion where
  standardIntrinsic   : Intrinsic
  numArgs             : Nat
  overloadedIntrinsic : Intrinsic
  deriving DecidableEq, Repr

/-- The static conversion table of AnalyzeFunctionCallIntrinsic, in
source order. -/
def intrinsicConversions : List IntrinsicConversion :=
  [ ⟨.asUInt_1, 3, .asUInt_3⟩,
    ⟨.tex1D_2, 4, .tex1D_4⟩,
    ⟨.tex2D_2, 4, .tex2D_4⟩,
    ⟨.tex3D_2, 4, .tex3D_4⟩,
    ⟨.texCube_2, 4, .texCube_4⟩,
    ⟨.texture_Load_1, 2, .texture_Load_2⟩,
    ⟨.texture_Load_1, 3, .texture_Load_3⟩,
    ⟨.texture_Sample_2, 3, .texture_Sample_3⟩,
    ⟨.texture_Sample_2, 4, .texture_Sample_4⟩,
    ⟨.texture_Sample_2, 5, .texture_Sample_5⟩,
    ⟨.texture_SampleBias_3, 4, .texture_SampleBias_4⟩,
    ⟨.texture_SampleBias_3, 5, .texture_SampleBias_5⟩,
    ⟨.texture_SampleBias_3, 6, .texture_SampleBias_6⟩,
    ⟨.texture_SampleCmp_3, 4, .texture_SampleCmp_4⟩,
    ⟨.texture_SampleCmp_3, 5, .texture_SampleCmp_5⟩,
    ⟨.texture_SampleCmp_3, 6, .texture_SampleCmp_6⟩,
    ⟨.texture_SampleGrad_4, 5, .texture_SampleGrad_5⟩,
    ⟨.texture_SampleGrad_4, 6, .texture_SampleGrad_6⟩,
    ⟨.texture_SampleGrad_4, 7, .texture_SampleGrad_7⟩,
    ⟨.texture_SampleLevel_3, 4, .texture_SampleLevel_4⟩,
    ⟨.texture_SampleLevel_3, 5, .texture_SampleLevel_5⟩ ]

/-- The conversion loop with break: the first row whose standard id and
argument count both match wins; with no match the id is kept. -/
def intrinsicConversionLoop (intrinsic : Intrinsic) (numArgs : Nat) :
    List IntrinsicConversion → Intrinsic
  | [] => intrinsic
  | c :: cs =>
      if intrinsic = c.standardIntrinsic ∧ numArgs = c.numArgs then
        c.overloadedIntrinsic
      else
        intrinsicConversionLoop intrinsic numArgs cs

/-- HLSLAnalyzer::AnalyzeFunctionCallIntrinsic: records the id from the
static dispatch-table entry, emits a warning when the shader model is
below the minimum of the entry, and upgrades the recorded id through the
conversion table. Returns the decorated id and whether the warning was
emitted. -/
def analyzeFunctionCallIntrinsic (shaderModel minShaderModel : Nat × Nat)
    (entryIntrinsic : Intrinsic) (numArgs : Nat) : Intrinsic × Bool :=
  let warned :=
    shaderModel.1 < minShaderModel.1 ∨
      (shaderModel.1 = minShaderModel.1 ∧ shaderModel.2 < minShaderModel.2)
  (intrinsicConversionLoop entryIntrinsic numArgs intrinsicConversions, decide warned)

/-! ## Semantic remapping (HLSLAnalyzer::AnalyzeSemantic) -/

/-- HLSLAnalyzer::AnalyzeSemantic: an SV_Position semantic is rewritten
to VertexPosition, keeping its index, exactly when the shader target is
the vertex shader. -/
def analyzeSemantic (shaderTarget : ShaderTarget) (semantic : IndexedSemantic) : IndexedSemantic :=
  if semantic.sem = Semantic.position ∧ shaderTarget = ShaderTarget.vertexShader then
    ⟨Semantic.vertexPosition, semantic.index⟩
  else
    semantic

/-- The tail of HLSLAnalyzer::AnalyzeVarIdentWithSymbolVarDecl: the
program-wide fragment-coordinate flag after analyzing a variable access
whose declaration carries the given semantic. -/
def analyzeVarIdentFragCoordFlag (shaderTarget : ShaderTarget) (varDeclSemantic : Semantic)
    (isFragCoordUsed : Bool) : Bool :=
  if varDeclSemantic = Semantic.position ∧ shaderTarget = ShaderTarget.fragmentShader then
    true
  else
    isFragCoordUsed

/-! ## Entry-point marking (HLSLAnalyzer::VisitFunctionDecl / AnalyzeEntryPoint) -/

/-- The fields of a FunctionDecl node relevant to entry-point marking. -/
structure FunctionDeclEntry where
  ident        : String
  isEntryPoint : Bool
  deriving DecidableEq, Repr

/-- The entry-point marking effect of HLSLAnalyzer::VisitFunctionDecl on
one visited declaration: AnalyzeEntryPoint sets the isEntryPoint flag
exactly when the identifier equals the configured entry-point name. -/
def visitFunctionDeclMark (entryPoint : String) (d : FunctionDeclEntry) : FunctionDeclEntry :=
  if d.ident = entryPoint then { d with isEntryPoint := true } else d

/-- The analyzer walk visits every function declaration of the
compilation in order. -/
def markEntryPoints (entryPoint : String) (decls : List FunctionDeclEntry) : List FunctionDeclEntry :=
  decls.map (visitFunctionDeclMark entryPoint)

/-! ## Buffer slot validation (HLSLAnalyzer::VisitBufferDeclStmnt) -/

/-- The errors reported by VisitBufferDeclStmnt, each carrying the index
of the slot register its source area points at. -/
inductive BufferSlotError where
  | multipleSlots (atRegister : Nat)
  | targetSpecific (atRegister : Nat)
  deriving DecidableEq, Repr

/-- The per-register loop of VisitBufferDeclStmnt: one error for every
slot register whose shader target is not Undefined, carrying the
position of that register. -/
def bufferSlotTargetErrors : Nat → List Register → List BufferSlotError
  | _, [] => []
  | i, r :: rs =>
      (if r.shaderTarget ≠ ShaderTarget.undefined then [BufferSlotError.targetSpecific i] else [])
        ++ bufferSlotTargetErrors (i + 1) rs

/-- HLSLAnalyzer::VisitBufferDeclStmnt, slot validation part: one error
at the second register when more than one slot register is attached,
then one error per slot register whose shader target is not Undefined. -/
def visitBufferDeclStmntErrors (slotRegisters : List Register) : List BufferSlotError :=
  (if slotRegisters.length > 1 then [BufferSlotError.multipleSlots 1] else [])
    ++ bufferSlotTargetErrors 0 slotRegisters

/-! ## Compile driver (Xsc.cpp) -/

inductive OutputShaderVersion where
  | glsl110
  | glsl120
  | glsl130
  | glsl140
  | glsl150
  | glsl330
  | glsl400
  | glsl410
  | glsl420
  | glsl430
  | glsl440
  | glsl450
  | glsl
  deriving DecidableEq, Repr

inductive PipelineStage where
  | preprocess
  | parse
  | analyze
  | optimize
  | generate
  deriving DecidableEq, Repr

/-- The outcomes of the pipeline stages and the options consulted by the
driver; the stages themselves are abstracted since the claim is about
the validation that runs before any of them. -/
structure CompileOutcomes where
  preprocessOk   : Bool
  parseOk        : Bool
  analyzeOk      : Bool
  generateOk     : Bool
  preprocessOnly : Bool
  optimize       : Bool
  deriving DecidableEq, Repr

/-- CompileShaderPrimary: argument validation (null streams, then the
two rejected output versions, each raising invalid_argument, modelled by
Except.error), then the stages in order; a failing stage submits an
error report and returns false. Both the error and the ok result carry
the list of pipeline stages that ran before the return. -/
def compileShaderPrimary (inputStreamNull outputStreamNull : Bool)
    (version : OutputShaderVersion) (oc : CompileOutcomes) :
    Except (String × List PipelineStage) (Bool × List PipelineStage) :=
  if inputStreamNull then .error ("input stream must not be null", [])
  else if outputStreamNull then .error ("output stream must not be null", [])
  else if version = OutputShaderVersion.glsl110 then
    .error ("output shader version GLSL 1.10 is not supported", [])
  else if version = OutputShaderVersion.glsl120 then
    .error ("output shader version GLSL 1.20 is not supported", [])
  else
    let stages := [PipelineStage.preprocess]
    if !oc.preprocessOk then .ok (false, stages)
    else if oc.preprocessOnly then .ok (true, stages)
    else
      let stages := stages ++ [PipelineStage.parse]
      if !oc.parseOk then .ok (false, stages)
      else
        let stages := stages ++ [PipelineStage.analyze]
        if !oc.analyzeOk then .ok (false, stages)
        else
          let stages := if oc.optimize then stages ++ [PipelineStage.optimize] else stages
          let stages := stages ++ [PipelineStage.generate]
          if !oc.generateOk then .ok (false, stages) else .ok (true, stages)

/-! ## Parse stage result (HLSLParser::ParseSource) -/

inductive ReportType where
  | info
  | warning
  | error
  deriving DecidableEq, Repr

structure Report where
  typ     : ReportType
  message : String
  deriving DecidableEq, Repr

/-- Modelled from the spec: ReportHandler::HasErros (the report handler
is not under src/) is true iff an Error report has been recorded. -/
def hasErros (reports : List Report) : Bool :=
  reports.any fun r => r.typ = ReportType.error

/-- The outcome of HLSLParser::ParseProgram for some program type:
either it returns normally with the reports recorded along the way, or
it threw a report (modelled from the spec: the reports the base parser
throws carry severity Error). -/
inductive ParseProgramOutcome (α : Type) where
  | normal (reports : List Report) (ast : α)
  | thrown (message : String) (reports : List Report)

/-- HLSLParser::ParseSource: on normal return the program is kept iff no
Error was recorded; a thrown report is submitted to the log and null is
returned. The second component is the final report log. -/
def parseSource {α : Type} (outcome : ParseProgramOutcome α) : Option α × List Report :=
  match outcome with
  | .normal reports ast => (if hasErros reports then none else some ast, reports)
  | .thrown message reports => (none, reports ++ [⟨ReportType.error, message⟩])

/-! ## Post-preprocessing directives (HLSLParser::ProcessDirective) -/

/-- Modelled from the spec: the scanner source origin (SourceCode is not
under src/); a token at physical row r reports row r + rowOffset, and
NextSourceOrigin adds a further offset and replaces the filename. -/
structure SourceOrigin where
  filename  : String
  rowOffset : Int
  deriving DecidableEq, Repr

/-- Modelled from the spec: SourceCode::NextSourceOrigin. -/
def nextSourceOrigin (origin : SourceOrigin) (filename : String) (lineOffset : Int) : SourceOrigin :=
  ⟨filename, origin.rowOffset + lineOffset⟩

/-- The row a token at the given physical row reports under an origin. -/
def reportedRow (origin : SourceOrigin) (physicalRow : Int) : Int :=
  physicalRow + origin.rowOffset

/-- HLSLParser::ProcessDirective: only a line directive is accepted; it
must be followed by an integer literal and a string literal, and then
reassigns the source origin with offset lineNo - currentLine - 1, where
currentLine is the reported row of the previous token. Every other
directive identifier is an error. -/
def processDirective (ident : String) (tokens : List Token) (currentLine : Int)
    (origin : SourceOrigin) : Except String (SourceOrigin × List Token) :=
  if ident = "line" then
    match tokens with
    | t1 :: rest =>
        if t1.type = TokenType.intLiteral then
          let lineNo : Int := fromStringInt t1.spell
          match rest with
          | t2 :: rest2 =>
              if t2.type = TokenType.stringLiteral then
                .ok (nextSourceOrigin origin t2.spell (lineNo - currentLine - 1), rest2)
              else
                .error "unexpected token: expected string literal"
          | [] => .error "unexpected token: expected string literal"
        else
          .error "unexpected token: expected int literal"
    | [] => .error "unexpected token: expected int literal"
  else
    .error "only line-directives are allowed after pre-processing"

/-! ## Parser state (HLSLParser)

The parser state: the remaining token stream, the scoped type-name
symbol table used for cast disambiguation, the parsing-state stack for
template arguments, and the warnings recorded so far. The token stream
covers the token subset of this model; the scanner and the directive
post-processing of HLSLParser::AcceptIt act before this stream.
-/

structure ParserState where
  tokens          : List Token
  typeNames       : List (List String)
  activeTemplates : List Bool
  warnings        : List String
  deriving DecidableEq, Repr

def outOfFuelMsg : String := "recursion budget exhausted"

def ParserState.tknType (s : ParserState) : TokenType :=
  match s.tokens with
  | [] => TokenType.endOfStream
  | t :: _ => t.type

def ParserState.tknSpell (s : ParserState) : String :=
  match s.tokens with
  | [] => ""
  | t :: _ => t.spell

/-- Parser::Is(type). -/
def isTk (s : ParserState) (t : TokenType) : Bool :=
  s.tknType = t

/-- Parser::Is(type, spell). -/
def isTkSpell (s : ParserState) (t : TokenType) (spell : String) : Bool :=
  s.tknType = t && s.tknSpell = spell

/-- Parser::AcceptIt: consume the current token. -/
def acceptIt (s : ParserState) : Except String (Token × ParserState) :=
  match s.tokens with
  | [] => .error "unexpected end of token stream"
  | t :: ts => .ok (t, { s with tokens := ts })

/-- Parser::Accept(type). -/
def accept (t : TokenType) (s : ParserState) : Except String (Token × ParserState) :=
  if isTk s t then acceptIt s else .error "unexpected token"

/-- Parser::Accept(type, spell). -/
def acceptSpell (t : TokenType) (spell : String) (s : ParserState) :
    Except String (Token × ParserState) :=
  if isTkSpell s t spell then acceptIt s else .error "unexpected token"

/-- HLSLParser::Semi. -/
def semi (s : ParserState) : Except String (Token × ParserState) :=
  accept TokenType.semicolon s

/-- HLSLParser::OpenScope (type-name symbol table). -/
def openScope (s : ParserState) : ParserState :=
  { s with typeNames := [] :: s.typeNames }

/-- HLSLParser::CloseScope (type-name symbol table). -/
def closeScope (s : ParserState) : ParserState :=
  { s with typeNames := s.typeNames.tail }

/-- HLSLParser::RegisterTypeName: install the identifier in the
innermost scope. Modelled from the spec for the symbol-table container
(§4.E): Register installs in the innermost scope. -/
def registerTypeName (ident : String) (s : ParserState) : ParserState :=
  match s.typeNames with
  | [] => { s with typeNames := [[ident]] }
  | scope :: rest => { s with typeNames := (ident :: scope) :: rest }

/-- HLSLParser::IsRegisteredTypeName: Fetch walks the scopes; only the
existence of a binding matters (§4.C). -/
def isRegisteredTypeName (s : ParserState) (ident : String) : Bool :=
  s.typeNames.any fun scope => scope.contains ident

/-- Parser::ActiveParsingState().activeTemplate. -/
def activeTemplate (s : ParserState) : Bool :=
  s.activeTemplates.headD false

def pushParsingState (b : Bool) (s : ParserState) : ParserState :=
  { s with activeTemplates := b :: s.activeTemplates }

def popParsingState (s : ParserState) : ParserState :=
  { s with activeTemplates := s.activeTemplates.tail }

def warn (msg : String) (s : ParserState) : ParserState :=
  { s with warnings := s.warnings ++ [msg] }

/-- HLSLParser::IsBaseDataType. -/
def isBaseDataType (s : ParserState) : Bool :=
  isTk s .scalarType || isTk s .vectorType || isTk s .matrixType || isTk s .stringType

/-- HLSLParser::IsDataType. On the modelled token subset (no
vector/matrix template keywords and no texture/sampler tokens) this
coincides with IsBaseDataType. -/
def isDataType (s : ParserState) : Bool :=
  isBaseDataType s

/-- HLSLParser::IsLiteral. -/
def isLiteral (s : ParserState) : Bool :=
  isTk s .boolLiteral || isTk s .intLiteral || isTk s .floatLiteral || isTk s .stringLiteral

/-- HLSLParser::IsArithmeticUnaryExpr. -/
def isArithmeticUnaryExpr (s : ParserState) : Bool :=
  isTkSpell s .binaryOp "-" || isTkSpell s .binaryOp "+"

/-- Modelled from the spec: HLSLKeywordToDataType (HLSLKeywords.cpp is
not under src/) for the data-type keywords used in this model. -/
def hlslKeywordToDataType (keyword : String) : Option DataType :=
  if keyword = "bool" then some .boolT
  else if keyword = "int" then some .intT
  else if keyword = "uint" then some .uintT
  else if keyword = "half" then some .halfT
  else if keyword = "float" then some .floatT
  else if keyword = "double" then some .doubleT
  else if keyword = "string" then some .stringT
  else if keyword = "float4" then some .float4
  else if keyword = "float4x4" then some .float4x4
  else none

/-- HLSLParser::ParseDataType: an unknown keyword reports an error. -/
def parseDataType (keyword : String) : Except String DataType :=
  match hlslKeywordToDataType keyword with
  | some dt => .ok dt
  | none => .error ("unknown data type keyword: " ++ keyword)

/-- Modelled from the spec: TokenToDataType for literal tokens. -/
def tokenToDataType (t : TokenType) : DataType :=
  match t with
  | .boolLiteral => .boolT
  | .intLiteral => .intT
  | .floatLiteral => .floatT
  | .stringLiteral => .stringT
  | _ => .undefined

/-- Modelled from the spec: HLSLKeywordToSemantic; SV_Position maps to
the system-value position semantic, anything else is user-defined. -/
def hlslKeywordToSemantic (ident : String) : IndexedSemantic :=
  if ident = "SV_Position" then ⟨Semantic.position, 0⟩ else ⟨Semantic.userDefined ident, 0⟩

/-- HLSLParser::MakeToTypeNameIfLhsOfCastExpr: a type-name expression is
always a cast left-hand side; a variable access is one iff it is a
single identifier without a dotted suffix that is registered in the
type-name symbol table, in which case it is rewritten into a type-name
expression over an alias type denoter. -/
def makeToTypeNameIfLhsOfCastExpr (s : ParserState) (expr : Expr) : Option Expr :=
  match expr with
  | .typeName td => some (.typeName td)
  | .varAccess varIdent _ _ =>
      if varIdent.next.isNone && isRegisteredTypeName s varIdent.ident then
        some (.typeName (.alias varIdent.ident))
      else
        none
  | _ => none

/-- HLSLShaderProfileToTarget (HLSLParser.cpp): the two-letter profile
prefix selects the register's target stage. -/
def hlslShaderProfileToTarget (s : String) : ShaderTarget :=
  if s.length ≥ 2 then
    let p := s.take 2
    if p = "vs" then .vertexShader
    else if p = "hs" then .tessellationControlShader
    else if p = "ds" then .tessellationEvaluationShader
    else if p = "gs" then .geometryShader
    else if p = "ps" then .fragmentShader
    else if p = "cs" then .computeShader
    else .undefined
  else .undefined

/-- HLSLParser::ParseIdent. -/
def parseIdent (s : ParserState) : Except String (String × ParserState) := do
  let (t, s) ← accept TokenType.ident s
  .ok (t.spell, s)

/-- HLSLParser::ParseSemantic. -/
def parseSemantic (parseColon : Bool) (s : ParserState) :
    Except String (IndexedSemantic × ParserState) := do
  let s ← if parseColon then do
            let (_, s) ← accept TokenType.colon s
            pure s
          else
            pure s
  let (ident, s) ← parseIdent s
  .ok (hlslKeywordToSemantic ident, s)

/-- HLSLParser::ParseRegister. -/
def parseRegister (parseColon : Bool) (s : ParserState) :
    Except String (Register × ParserState) := do
  let s ← if parseColon then do
            let (_, s) ← accept TokenType.colon s
            pure s
          else
            pure s
  let (_, s) ← accept TokenType.registerKw s
  let (_, s) ← accept TokenType.lBracket s
  let (typeIdent, s) ← parseIdent s
  let (shaderTarget, typeIdent, s) ←
    if isTk s .comma then do
      let target := hlslShaderProfileToTarget typeIdent
      let (_, s) ← acceptIt s
      let (typeIdent2, s) ← parseIdent s
      pure (target, typeIdent2, s)
    else
      pure (ShaderTarget.undefined, typeIdent, s)
  let registerType :=
    match typeIdent.toList.head? with
    | some c => charToRegisterType c
    | none => RegisterType.undefined
  let slot : Int := fromStringInt (typeIdent.drop 1)
  let s := if registerType = RegisterType.undefined then
             warn ("unknown slot register: " ++ typeIdent.take 1) s
           else s
  let (slot, s) ←
    if isTk s .lParen then do
      let (_, s) ← acceptIt s
      let (sub, s) ← accept TokenType.intLiteral s
      let (_, s) ← accept TokenType.rParen s
      pure (slot + fromStringInt sub.spell, s)
    else
      pure (slot, s)
  let (_, s) ← accept TokenType.rBracket s
  .ok (⟨shaderTarget, registerType, slot⟩, s)

/-- HLSLParser::ParsePackOffset. -/
def parsePackOffset (parseColon : Bool) (s : ParserState) :
    Except String (PackOffset × ParserState) := do
  let s ← if parseColon then do
            let (_, s) ← accept TokenType.colon s
            pure s
          else
            pure s
  let (_, s) ← accept TokenType.packOffsetKw s
  let (_, s) ← accept TokenType.lBracket s
  let (registerName, s) ← parseIdent s
  let (component, s) ←
    if isTk s .dot then do
      let (_, s) ← acceptIt s
      parseIdent s
    else
      pure ("", s)
  let (_, s) ← accept TokenType.rBracket s
  .ok (⟨registerName, component⟩, s)

/-! ## Recursive-descent parser (HLSLParser.cpp)

All parse functions of the statement/expression subset, as one mutual
block of fuel-bounded functions; every recursive call spends one unit of
fuel, so a sufficiently large budget reproduces the source behavior.
ParseGenericExpr lives in the parser base class that is not under src/
and is modelled from the spec, see its comment.
-/

/-- Projection used while parsing struct declarations. -/
def structDeclIdent : StructDecl → String
  | .mk i _ _ => i

mutual

/-- HLSLParser::ParseStmnt. -/
def parseStmnt : Nat → ParserState → Except String (Stmnt × ParserState)
  | 0, _ => .error outOfFuelMsg
  | fuel + 1, s => do
      let (attribs, s) ←
        if isTk s .lParen then parseAttributeList fuel s else pure ([], s)
      match s.tknType with
      | .semicolon => parseNullStmnt fuel s
      | .lCurly => parseCodeBlockStmnt fuel s
      | .returnKw => parseReturnStmnt fuel s
      | .ident => parseVarDeclOrAssignOrFunctionCallStmnt fuel s
      | .forKw => parseForLoopStmnt fuel attribs s
      | .whileKw => parseWhileLoopStmnt fuel attribs s
      | .doKw => parseDoWhileLoopStmnt fuel attribs s
      | .ifKw => parseIfStmnt fuel attribs s
      | .switchKw => parseSwitchStmnt fuel attribs s
      | .ctrlTransfer => parseCtrlTransferStmnt fuel s
      | .structKw => parseStructDeclOrVarDeclStmnt fuel s
      | .typedefKw => parseAliasDeclStmnt fuel s
      | .typeModifier => parseVarDeclStmnt fuel s
      | .storageClass => parseVarDeclStmnt fuel s
      | _ =>
          if isDataType s then parseVarDeclStmnt fuel s
          else parseExprStmnt fuel none s

/-- HLSLParser::ParseNullStmnt. -/
def parseNullStmnt : Nat → ParserState → Except String (Stmnt × ParserState)
  | 0, _ => .error outOfFuelMsg
  | _ + 1, s => do
      let (_, s) ← semi s
      .ok (.nullStmnt, s)

/-- HLSLParser::ParseCodeBlockStmnt. -/
def parseCodeBlockStmnt : Nat → ParserState → Except String (Stmnt × ParserState)
  | 0, _ => .error outOfFuelMsg
  | fuel + 1, s => do
      let (stmnts, s) ← parseCodeBlock fuel s
      .ok (.codeBlockStmnt stmnts, s)

/-- HLSLParser::ParseCodeBlock: braces around a statement list, with a
fresh type-name scope. -/
def parseCodeBlock : Nat → ParserState → Except String (List Stmnt × ParserState)
  | 0, _ => .error outOfFuelMsg
  | fuel + 1, s => do
      let (_, s) ← accept TokenType.lCurly s
      let s := openScope s
      let (stmnts, s) ← parseStmntList fuel s
      let s := closeScope s
      let (_, s) ← accept TokenType.rCurly s
      .ok (stmnts, s)

/-- HLSLParser::ParseStmntList: statements until the closing brace. -/
def parseStmntList : Nat → ParserState → Except String (List Stmnt × ParserState)
  | 0, _ => .error outOfFuelMsg
  | fuel + 1, s =>
      if isTk s .rCurly then
        .ok ([], s)
      else do
        let (st, s) ← parseStmnt fuel s
        let (sts, s) ← parseStmntList fuel s
        .ok (st :: sts, s)

/-- HLSLParser::ParseForLoopStmnt. -/
def parseForLoopStmnt : Nat → List Attrib → ParserState → Except String (Stmnt × ParserState)
  | 0, _, _ => .error outOfFuelMsg
  | fuel + 1, attribs, s => do
      let (_, s) ← accept TokenType.forKw s
      let (_, s) ← accept TokenType.lBracket s
      let (initSmnt, s) ← parseStmnt fuel s
      let (condition, s) ←
        if isTk s .semicolon then pure (none, s)
        else do
          let (e, s) ← parseExpr fuel true none s
          pure (some e, s)
      let (_, s) ← semi s
      let (iteration, s) ←
        if isTk s .rBracket then pure (none, s)
        else do
          let (e, s) ← parseExpr fuel true none s
          pure (some e, s)
      let (_, s) ← accept TokenType.rBracket s
      let (bodyStmnt, s) ← parseStmnt fuel s
      .ok (.forLoopStmnt attribs initSmnt condition iteration bodyStmnt, s)

/-- HLSLParser::ParseWhileLoopStmnt. -/
def parseWhileLoopStmnt : Nat → List Attrib → ParserState → Except String (Stmnt × ParserState)
  | 0, _, _ => .error outOfFuelMsg
  | fuel + 1, attribs, s => do
      let (_, s) ← accept TokenType.whileKw s
      let (_, s) ← accept TokenType.lBracket s
      let (condition, s) ← parseExpr fuel true none s
      let (_, s) ← accept TokenType.rBracket s
      let (bodyStmnt, s) ← parseStmnt fuel s
      .ok (.whileLoopStmnt attribs condition bodyStmnt, s)

/-- HLSLParser::ParseDoWhileLoopStmnt. -/
def parseDoWhileLoopStmnt : Nat → List Attrib → ParserState → Except String (Stmnt × ParserState)
  | 0, _, _ => .error outOfFuelMsg
  | fuel + 1, attribs, s => do
      let (_, s) ← accept TokenType.doKw s
      let (bodyStmnt, s) ← parseStmnt fuel s
      let (_, s) ← accept TokenType.whileKw s
      let (_, s) ← accept TokenType.lBracket s
      let (condition, s) ← parseExpr fuel true none s
      let (_, s) ← accept TokenType.rBracket s
      let (_, s) ← semi s
      .ok (.doWhileLoopStmnt attribs bodyStmnt condition, s)

/-- HLSLParser::ParseIfStmnt. -/
def parseIfStmnt : Nat → List Attrib → ParserState → Except String (Stmnt × ParserState)
  | 0, _, _ => .error outOfFuelMsg
  | fuel + 1, attribs, s => do
      let (_, s) ← accept TokenType.ifKw s
      let (_, s) ← accept TokenType.lBracket s
      let (condition, s) ← parseExpr fuel true none s
      let (_, s) ← accept TokenType.rBracket s
      let (bodyStmnt, s) ← parseStmnt fuel s
      let (elseSt, s) ←
        if isTk s .elseKw then do
          let (e, s) ← parseElseStmnt fuel s
          pure (some e, s)
        else
          pure (none, s)
      .ok (.ifStmnt attribs condition bodyStmnt elseSt, s)

/-- HLSLParser::ParseElseStmnt. -/
def parseElseStmnt : Nat → ParserState → Except String (Stmnt × ParserState)
  | 0, _ => .error outOfFuelMsg
  | fuel + 1, s => do
      let (_, s) ← accept TokenType.elseKw s
      let (bodyStmnt, s) ← parseStmnt fuel s
      .ok (.elseStmnt bodyStmnt, s)

/-- HLSLParser::ParseSwitchStmnt. -/
def parseSwitchStmnt : Nat → List Attrib → ParserState → Except String (Stmnt × ParserState)
  | 0, _, _ => .error outOfFuelMsg
  | fuel + 1, attribs, s => do
      let (_, s) ← accept TokenType.switchKw s
      let (_, s) ← accept TokenType.lBracket s
      let (selector, s) ← parseExpr fuel true none s
      let (_, s) ← accept TokenType.rBracket s
      let (_, s) ← accept TokenType.lCurly s
      let (cases, s) ← parseSwitchCaseList fuel s
      let (_, s) ← accept TokenType.rCurly s
      .ok (.switchStmnt attribs selector cases, s)

/-- HLSLParser::ParseSwitchCaseList. -/
def parseSwitchCaseList : Nat → ParserState → Except String (List SwitchCase × ParserState)
  | 0, _ => .error outOfFuelMsg
  | fuel + 1, s =>
      if isTk s .caseKw || isTk s .defaultKw then do
        let (c, s) ← parseSwitchCase fuel s
        let (cs, s) ← parseSwitchCaseList fuel s
        .ok (c :: cs, s)
      else
        .ok ([], s)

/-- HLSLParser::ParseSwitchCase: case-list scanning continues until
case, default, or the closing brace. -/
def parseSwitchCase : Nat → ParserState → Except String (SwitchCase × ParserState)
  | 0, _ => .error outOfFuelMsg
  | fuel + 1, s => do
      let (caseExpr, s) ←
        if isTk s .caseKw then do
          let (_, s) ← accept TokenType.caseKw s
          let (e, s) ← parseExpr fuel false none s
          pure (some e, s)
        else do
          let (_, s) ← accept TokenType.defaultKw s
          pure (none, s)
      let (_, s) ← accept TokenType.colon s
      let (stmnts, s) ← parseSwitchCaseStmntList fuel s
      .ok (.mk caseExpr stmnts, s)

/-- The statement loop inside HLSLParser::ParseSwitchCase. -/
def parseSwitchCaseStmntList : Nat → ParserState → Except String (List Stmnt × ParserState)
  | 0, _ => .error outOfFuelMsg
  | fuel + 1, s =>
      if !(isTk s .caseKw) && !(isTk s .defaultKw) && !(isTk s .rCurly) then do
        let (st, s) ← parseStmnt fuel s
        let (sts, s) ← parseSwitchCaseStmntList fuel s
        .ok (st :: sts, s)
      else
        .ok ([], s)

/-- HLSLParser::ParseCtrlTransferStmnt. -/
def parseCtrlTransferStmnt : Nat → ParserState → Except String (Stmnt × ParserState)
  | 0, _ => .error outOfFuelMsg
  | _ + 1, s => do
      let (t, s) ← accept TokenType.ctrlTransfer s
      let (_, s) ← semi s
      .ok (.ctrlTransferStmnt (stringToCtrlTransfer t.spell), s)

/-- HLSLParser::ParseReturnStmnt. -/
def parseReturnStmnt : Nat → ParserState → Except String (Stmnt × ParserState)
  | 0, _ => .error outOfFuelMsg
  | fuel + 1, s => do
      let (_, s) ← accept TokenType.returnKw s
      let (e, s) ←
        if isTk s .semicolon then pure (none, s)
        else do
          let (e, s) ← parseExpr fuel true none s
          pure (some e, s)
      let (_, s) ← semi s
      .ok (.returnStmnt e, s)

/-- HLSLParser::ParseExprStmnt: an optional already-parsed variable
identifier becomes the initial variable-access expression. -/
def parseExprStmnt : Nat → Option VarIdent → ParserState → Except String (Stmnt × ParserState)
  | 0, _, _ => .error outOfFuelMsg
  | fuel + 1, varIdent, s => do
      let (e, s) ←
        match varIdent with
        | some vi => parseExpr fuel true (some (.varAccess vi none none)) s
        | none => parseExpr fuel true none s
      let (_, s) ← semi s
      .ok (.exprStmnt e, s)

/-- HLSLParser::ParseVarDeclOrAssignOrFunctionCallStmnt: parse a
variable identifier first, then decide by the next token. -/
def parseVarDeclOrAssignOrFunctionCallStmnt :
    Nat → ParserState → Except String (Stmnt × ParserState)
  | 0, _ => .error outOfFuelMsg
  | fuel + 1, s => do
      let (varIdent, s) ← parseVarIdent fuel s
      if isTk s .lBracket then do
        let (fc, s) ← parseFunctionCallExpr fuel (some varIdent) none s
        let (e, s) ← parseExpr fuel true (some fc) s
        let (_, s) ← semi s
        .ok (.exprStmnt e, s)
      else if isTk s .assignOp then do
        let (opTkn, s) ← acceptIt s
        let (assignE, s) ← parseExpr fuel true none s
        let (_, s) ← semi s
        .ok (.exprStmnt (.varAccess varIdent (some (stringToAssignOp opTkn.spell)) (some assignE)), s)
      else if isTkSpell s .unaryOp "++" || isTkSpell s .unaryOp "--" then
        parseExprStmnt fuel (some varIdent) s
      else
        match varIdent with
        | .mk ident arrayIndices none => do
            let td0 := TypeDenoter.alias ident
            let td := if arrayIndices.isEmpty then td0 else .array td0 arrayIndices
            let (varDecls, s) ← parseVarDeclList fuel none s
            let (_, s) ← semi s
            .ok (.varDeclStmnt [] [] none (some (.mk none td)) varDecls, s)
        | _ =>
            .error "expected variable declaration, assignment or function call statement"

/-- HLSLParser::ParseStructDeclOrVarDeclStmnt. -/
def parseStructDeclOrVarDeclStmnt : Nat → ParserState → Except String (Stmnt × ParserState)
  | 0, _ => .error outOfFuelMsg
  | fuel + 1, s => do
      let (structDecl, s) ← parseStructDecl fuel true none s
      if !(isTk s .semicolon) then do
        let varType := VarType.mk (some structDecl)
          (.structTD (structDeclIdent structDecl) (some structDecl))
        let (varDecls, s) ← parseVarDeclList fuel none s
        let (_, s) ← semi s
        .ok (.varDeclStmnt [] [] none (some varType) varDecls, s)
      else do
        let (_, s) ← semi s
        .ok (.structDeclStmnt structDecl, s)

/-- HLSLParser::ParseAliasDeclStmnt. -/
def parseAliasDeclStmnt : Nat → ParserState → Except String (Stmnt × ParserState)
  | 0, _ => .error outOfFuelMsg
  | fuel + 1, s => do
      let (_, s) ← accept TokenType.typedefKw s
      let ((typeDenoter, structDecl), s) ← parseTypeDenoterWithStructDeclOpt fuel false s
      let (aliasDecls, s) ← parseAliasDeclList fuel typeDenoter s
      let (_, s) ← semi s
      .ok (.aliasDeclStmnt structDecl aliasDecls, s)

/-- HLSLParser::ParseVarDeclStmnt (the statement form with leading
storage classes and type modifiers). -/
def parseVarDeclStmnt : Nat → ParserState → Except String (Stmnt × ParserState)
  | 0, _ => .error outOfFuelMsg
  | fuel + 1, s => do
      let ((storageClasses, typeModifiers, varType), s) ← parseVarDeclStmntPrefix fuel [] [] s
      let (varDecls, s) ← parseVarDeclList fuel none s
      let (_, s) ← semi s
      .ok (.varDeclStmnt storageClasses typeModifiers none (some varType) varDecls, s)

/-- The leading loop of HLSLParser::ParseVarDeclStmnt collecting storage
classes and type modifiers until the type denoter. -/
def parseVarDeclStmntPrefix : Nat → List String → List String → ParserState →
    Except String ((List String × List String × VarType) × ParserState)
  | 0, _, _, _ => .error outOfFuelMsg
  | fuel + 1, storageClasses, typeModifiers, s =>
      if isTk s .storageClass then do
        let (t, s) ← acceptIt s
        parseVarDeclStmntPrefix fuel (storageClasses ++ [t.spell]) typeModifiers s
      else if isTk s .typeModifier then do
        let (t, s) ← acceptIt s
        parseVarDeclStmntPrefix fuel storageClasses (typeModifiers ++ [t.spell]) s
      else if isTk s .ident || isDataType s then do
        let (td, s) ← parseTypeDenoter fuel false s
        .ok ((storageClasses, typeModifiers, .mk none td), s)
      else if isTk s .structKw then do
        let (sd, s) ← parseStructDecl fuel true none s
        .ok ((storageClasses, typeModifiers, .mk (some sd) (.structTD (structDeclIdent sd) (some sd))), s)
      else
        .error "unexpected token"

/-- HLSLParser::ParseVarDeclList. -/
def parseVarDeclList : Nat → Option String → ParserState →
    Except String (List VarDecl × ParserState)
  | 0, _, _ => .error outOfFuelMsg
  | fuel + 1, firstIdentTkn, s => do
      let (d, s) ← parseVarDecl fuel firstIdentTkn s
      if isTk s .comma then do
        let (_, s) ← acceptIt s
        let (ds, s) ← parseVarDeclList fuel none s
        .ok (d :: ds, s)
      else
        .ok ([d], s)

/-- HLSLParser::ParseVarDecl. -/
def parseVarDecl : Nat → Option String → ParserState → Except String (VarDecl × ParserState)
  | 0, _, _ => .error outOfFuelMsg
  | fuel + 1, identTkn, s => do
      let (ident, s) ←
        match identTkn with
        | some i => pure (i, s)
        | none => parseIdent s
      let (arrayDims, s) ← parseArrayDimensionList fuel true s
      let ((packOffset, semantic), s) ← parseVarDeclSemantic fuel true none none s
      let (annots, s) ← parseAnnotList fuel s
      let (initE, s) ←
        if isTkSpell s .assignOp "=" then do
          let (e, s) ← parseInitializer fuel s
          pure (some e, s)
        else
          pure (none, s)
      .ok (.mk ident arrayDims packOffset semantic annots initE, s)

/-- HLSLParser::ParseVarDeclSemantic: a loop over colon-introduced
register (warned and ignored), packoffset (kept, error when not allowed)
and semantic sections; later sections overwrite earlier ones. The
allowPackOffset default lives in the header that is not under src/. -/
def parseVarDeclSemantic : Nat → Bool → Option PackOffset → Option IndexedSemantic →
    ParserState → Except String ((Option PackOffset × Option IndexedSemantic) × ParserState)
  | 0, _, _, _, _ => .error outOfFuelMsg
  | fuel + 1, allowPackOffset, packOffset, semantic, s =>
      if isTk s .colon then do
        let (_, s) ← accept TokenType.colon s
        if isTk s .registerKw then do
          let s := warn "register is ignore for variable declarations" s
          let (_, s) ← parseRegister false s
          parseVarDeclSemantic fuel allowPackOffset packOffset semantic s
        else if isTk s .packOffsetKw then do
          let (po, s) ← parsePackOffset false s
          if !allowPackOffset then
            .error "packoffset is only allowed in a constant buffer"
          else
            parseVarDeclSemantic fuel allowPackOffset (some po) semantic s
        else do
          let (sem, s) ← parseSemantic false s
          parseVarDeclSemantic fuel allowPackOffset packOffset (some sem) s
      else
        .ok ((packOffset, semantic), s)

/-- HLSLParser::ParseAnnotationList: an angle-bracketed list of variable
declaration statements, present only when the next token is the less
operator. -/
def parseAnnotList : Nat → ParserState → Except String (List Stmnt × ParserState)
  | 0, _ => .error outOfFuelMsg
  | fuel + 1, s =>
      if isTkSpell s .binaryOp "<" then do
        let (_, s) ← acceptIt s
        let (annots, s) ← parseAnnotListBody fuel s
        .ok (annots, s)
      else
        .ok ([], s)

/-- The loop inside HLSLParser::ParseAnnotationList. -/
def parseAnnotListBody : Nat → ParserState → Except String (List Stmnt × ParserState)
  | 0, _ => .error outOfFuelMsg
  | fuel + 1, s =>
      if isTkSpell s .binaryOp ">" then do
        let (_, s) ← acceptIt s
        .ok ([], s)
      else do
        let (d, s) ← parseVarDeclStmnt fuel s
        let (ds, s) ← parseAnnotListBody fuel s
        .ok (d :: ds, s)

/-- HLSLParser::ParseInitializer. -/
def parseInitializer : Nat → ParserState → Except String (Expr × ParserState)
  | 0, _ => .error outOfFuelMsg
  | fuel + 1, s => do
      let (_, s) ← acceptSpell TokenType.assignOp "=" s
      parseExpr fuel false none s

/-- HLSLParser::ParseStructDecl: optional struct keyword, optional name
(registered as a type name), optional single inheritance, then the
member list. -/
def parseStructDecl : Nat → Bool → Option String → ParserState →
    Except String (StructDecl × ParserState)
  | 0, _, _, _ => .error outOfFuelMsg
  | fuel + 1, parseStructTkn, identTkn, s => do
      let s' ← if parseStructTkn then do
                 let (_, s) ← accept TokenType.structKw s
                 pure s
               else
                 pure s
      let s := s'
      if isTk s .ident || identTkn.isSome then do
        let (ident, s) ←
          match identTkn with
          | some i => pure (i, s)
          | none => parseIdent s
        let s := registerTypeName ident s
        let (baseName, s) ←
          if isTk s .colon then do
            let (_, s) ← acceptIt s
            let (baseName, s) ← parseIdent s
            if baseName = ident then
              .error "recursive inheritance is not allowed"
            else if isTk s .comma then
              .error "multiple inheritance is not allowed"
            else
              pure (baseName, s)
          else
            pure ("", s)
        let (members, s) ← parseVarDeclStmntList fuel s
        .ok (.mk ident baseName members, s)
      else do
        let (members, s) ← parseVarDeclStmntList fuel s
        .ok (.mk "" "" members, s)

/-- HLSLParser::ParseVarDeclStmntList: member declarations in braces. -/
def parseVarDeclStmntList : Nat → ParserState → Except String (List Stmnt × ParserState)
  | 0, _ => .error outOfFuelMsg
  | fuel + 1, s => do
      let (_, s) ← accept TokenType.lCurly s
      let (members, s) ← parseVarDeclStmntListBody fuel s
      .ok (members, s)

/-- The loop inside HLSLParser::ParseVarDeclStmntList, consuming the
closing brace. -/
def parseVarDeclStmntListBody : Nat → ParserState → Except String (List Stmnt × ParserState)
  | 0, _ => .error outOfFuelMsg
  | fuel + 1, s =>
      if isTk s .rCurly then do
        let (_, s) ← acceptIt s
        .ok ([], s)
      else do
        let (d, s) ← parseVarDeclStmnt fuel s
        let (ds, s) ← parseVarDeclStmntListBody fuel s
        .ok (d :: ds, s)

/-- HLSLParser::ParseAliasDecl: the alias identifier (registered as a
type name) with optional array dimensions over the given base type. -/
def parseAliasDecl : Nat → TypeDenoter → ParserState → Except String (AliasDecl × ParserState)
  | 0, _, _ => .error outOfFuelMsg
  | fuel + 1, typeDenoter, s => do
      let (ident, s) ← parseIdent s
      let s := registerTypeName ident s
      let (td, s) ←
        if isTk s .lParen then do
          let (arrayDims, s) ← parseArrayDimensionList fuel false s
          pure (TypeDenoter.array typeDenoter arrayDims, s)
        else
          pure (typeDenoter, s)
      .ok (.mk ident td, s)

/-- HLSLParser::ParseAliasDeclList. -/
def parseAliasDeclList : Nat → TypeDenoter → ParserState →
    Except String (List AliasDecl × ParserState)
  | 0, _, _ => .error outOfFuelMsg
  | fuel + 1, typeDenoter, s => do
      let (d, s) ← parseAliasDecl fuel typeDenoter s
      if isTk s .comma then do
        let (_, s) ← acceptIt s
        let (ds, s) ← parseAliasDeclList fuel typeDenoter s
        .ok (d :: ds, s)
      else
        .ok ([d], s)

/-- HLSLParser::ParseAttributeList. -/
def parseAttributeList : Nat → ParserState → Except String (List Attrib × ParserState)
  | 0, _ => .error outOfFuelMsg
  | fuel + 1, s =>
      if isTk s .lParen then do
        let (a, s) ← parseAttribute fuel s
        let (as_, s) ← parseAttributeList fuel s
        .ok (a :: as_, s)
      else
        .ok ([], s)

/-- HLSLParser::ParseAttribute. -/
def parseAttribute : Nat → ParserState → Except String (Attrib × ParserState)
  | 0, _ => .error outOfFuelMsg
  | fuel + 1, s => do
      let (_, s) ← accept TokenType.lParen s
      let (ident, s) ← parseIdent s
      let (args, s) ←
        if isTk s .lBracket then do
          let (_, s) ← acceptIt s
          let (args, s) ←
            if !(isTk s .rBracket) then parseAttributeArgs fuel s
            else pure ([], s)
          let (_, s) ← accept TokenType.rBracket s
          pure (args, s)
        else
          pure ([], s)
      let (_, s) ← accept TokenType.rParen s
      .ok (.mk ident args, s)

/-- The argument loop inside HLSLParser::ParseAttribute. -/
def parseAttributeArgs : Nat → ParserState → Except String (List Expr × ParserState)
  | 0, _ => .error outOfFuelMsg
  | fuel + 1, s => do
      let (e, s) ← parseExpr fuel false none s
      if isTk s .comma then do
        let (_, s) ← acceptIt s
        let (es, s) ← parseAttributeArgs fuel s
        .ok (e :: es, s)
      else
        .ok ([e], s)

/-- HLSLParser::ParseVarIdent: identifier, array indices, optional
dotted next identifier. -/
def parseVarIdent : Nat → ParserState → Except String (VarIdent × ParserState)
  | 0, _ => .error outOfFuelMsg
  | fuel + 1, s => do
      let (ident, s) ← parseIdent s
      let (arrayIndices, s) ← parseArrayDimensionList fuel false s
      if isTk s .dot then do
        let (_, s) ← acceptIt s
        let (next, s) ← parseVarIdent fuel s
        .ok (.mk ident arrayIndices (some next), s)
      else
        .ok (.mk ident arrayIndices none, s)

/-- HLSLParser::ParseArrayDimensionList. -/
def parseArrayDimensionList : Nat → Bool → ParserState →
    Except String (List Expr × ParserState)
  | 0, _, _ => .error outOfFuelMsg
  | fuel + 1, allowDynamicDimension, s =>
      if isTk s .lParen then do
        let (e, s) ← parseArrayDimension fuel allowDynamicDimension s
        let (es, s) ← parseArrayDimensionList fuel allowDynamicDimension s
        .ok (e :: es, s)
      else
        .ok ([], s)

/-- HLSLParser::ParseArrayDimension. -/
def parseArrayDimension : Nat → Bool → ParserState → Except String (Expr × ParserState)
  | 0, _, _ => .error outOfFuelMsg
  | fuel + 1, allowDynamicDimension, s => do
      let (_, s) ← accept TokenType.lParen s
      let (e, s) ←
        if isTk s .rParen then
          if !allowDynamicDimension then
            .error "explicit array dimension expected"
          else
            pure (Expr.nullExpr, s)
        else
          parseExpr fuel false none s
      let (_, s) ← accept TokenType.rParen s
      .ok (e, s)

/-- HLSLParser::ParseTypeDenoter. -/
def parseTypeDenoter : Nat → Bool → ParserState → Except String (TypeDenoter × ParserState)
  | 0, _, _ => .error outOfFuelMsg
  | fuel + 1, allowVoidType, s =>
      if isTk s .voidType then
        if allowVoidType then do
          let (_, s) ← accept TokenType.voidType s
          .ok (.voidTD, s)
        else
          .error "void type not allowed in this context"
      else do
        let (td, s) ← parseTypeDenoterPrimary fuel s
        if isTk s .lParen then do
          let (arrayDims, s) ← parseArrayDimensionList fuel false s
          .ok (.array td arrayDims, s)
        else
          .ok (td, s)

/-- HLSLParser::ParseTypeDenoterPrimary, on the modelled token subset
(no vector/matrix template keywords and no texture/sampler tokens). -/
def parseTypeDenoterPrimary : Nat → ParserState → Except String (TypeDenoter × ParserState)
  | 0, _ => .error outOfFuelMsg
  | fuel + 1, s =>
      if isBaseDataType s then
        parseBaseTypeDenoter fuel s
      else if isTk s .ident then do
        let (ident, s) ← parseIdent s
        .ok (.alias ident, s)
      else if isTk s .structKw then
        parseStructTypeDenoter fuel s
      else
        .error "expected type denoter"

/-- HLSLParser::ParseBaseTypeDenoter. -/
def parseBaseTypeDenoter : Nat → ParserState → Except String (TypeDenoter × ParserState)
  | 0, _ => .error outOfFuelMsg
  | _ + 1, s =>
      if isBaseDataType s then do
        let (t, s) ← acceptIt s
        let dt ← parseDataType t.spell
        .ok (.base dt, s)
      else
        .error "expected base type denoter"

/-- HLSLParser::ParseStructTypeDenoter. -/
def parseStructTypeDenoter : Nat → ParserState → Except String (TypeDenoter × ParserState)
  | 0, _ => .error outOfFuelMsg
  | _ + 1, s => do
      let s ← if isTk s .structKw then do
                let (_, s) ← acceptIt s
                pure s
              else
                pure s
      let (ident, s) ← parseIdent s
      .ok (.structTD ident none, s)

/-- HLSLParser::ParseTypeDenoterWithStructDeclOpt. -/
def parseTypeDenoterWithStructDeclOpt : Nat → Bool → ParserState →
    Except String ((TypeDenoter × Option StructDecl) × ParserState)
  | 0, _, _ => .error outOfFuelMsg
  | fuel + 1, allowVoidType, s =>
      if isTk s .structKw then do
        let (_, s) ← acceptIt s
        if isTk s .lCurly then do
          let (sd, s) ← parseStructDecl fuel false none s
          .ok ((.structTD (structDeclIdent sd) (some sd), some sd), s)
        else do
          let (identTkn, s) ← accept TokenType.ident s
          if isTk s .lCurly || isTk s .colon then do
            let (sd, s) ← parseStructDecl fuel false (some identTkn.spell) s
            .ok ((.structTD (structDeclIdent sd) (some sd), some sd), s)
          else
            .ok ((.structTD identTkn.spell none, none), s)
      else do
        let (td, s) ← parseTypeDenoter fuel allowVoidType s
        .ok ((td, none), s)

/-- HLSLParser::ParseExpr: primary or given expression, optional
post-unary operator, optional comma list. -/
def parseExpr : Nat → Bool → Option Expr → ParserState → Except String (Expr × ParserState)
  | 0, _, _, _ => .error outOfFuelMsg
  | fuel + 1, allowComma, initExpr, s => do
      let (e, s) ←
        match initExpr with
        | some e => pure (e, s)
        | none => parseGenericExpr fuel s
      let (e, s) ←
        if isTk s .unaryOp then do
          let (t, s) ← acceptIt s
          pure (Expr.postUnary e (stringToUnaryOp t.spell), s)
        else
          pure (e, s)
      if allowComma && isTk s .comma then do
        let (_, s) ← acceptIt s
        let (nextE, s) ← parseExpr fuel true none s
        .ok (.listExpr e nextE, s)
      else
        .ok (e, s)

/-- Modelled from the spec: Parser::ParseGenericExpr lives in the parser
base class that is not under src/. Per §4.C the parser is recursive
descent with one-token lookahead; binary operators are parsed here
left-associatively at a single precedence level (operator precedence is
irrelevant to every verified claim), the less and greater operators are
not binary operators while a template is active, and a trailing ternary
follows the binary chain. -/
def parseGenericExpr : Nat → ParserState → Except String (Expr × ParserState)
  | 0, _ => .error outOfFuelMsg
  | fuel + 1, s => do
      let (e, s) ← parsePrimaryExpr fuel s
      let (e, s) ← parseBinaryExprRest fuel e s
      if isTk s .ternaryOp then do
        let (_, s) ← acceptIt s
        let (thenE, s) ← parseGenericExpr fuel s
        let (_, s) ← accept TokenType.colon s
        let (elseE, s) ← parseGenericExpr fuel s
        .ok (.ternary e thenE elseE, s)
      else
        .ok (e, s)

/-- Modelled from the spec: the binary-operator loop of the generic
expression parser, see parseGenericExpr. -/
def parseBinaryExprRest : Nat → Expr → ParserState → Except String (Expr × ParserState)
  | 0, _, _ => .error outOfFuelMsg
  | fuel + 1, lhs, s =>
      if isTk s .binaryOp &&
          !(activeTemplate s && (s.tknSpell = "<" || s.tknSpell = ">")) then do
        let (t, s) ← acceptIt s
        let (rhs, s) ← parsePrimaryExpr fuel s
        parseBinaryExprRest fuel (.binary (stringToBinaryOp t.spell) lhs rhs) s
      else
        .ok (lhs, s)

/-- HLSLParser::ParsePrimaryExpr. -/
def parsePrimaryExpr : Nat → ParserState → Except String (Expr × ParserState)
  | 0, _ => .error outOfFuelMsg
  | fuel + 1, s =>
      if isLiteral s then
        parseLiteralOrSuffixExpr fuel s
      else if isDataType s || isTk s .structKw then
        parseTypeNameOrFunctionCallExpr fuel s
      else if isTk s .unaryOp || isArithmeticUnaryExpr s then
        parseUnaryExpr fuel s
      else if isTk s .lBracket then
        parseBracketOrCastExpr fuel s
      else if isTk s .lCurly then
        parseInitializerExpr fuel s
      else if isTk s .ident then
        parseVarAccessOrFunctionCallExpr fuel s
      else
        .error "expected primary expression"

/-- HLSLParser::ParseLiteralOrSuffixExpr. -/
def parseLiteralOrSuffixExpr : Nat → ParserState → Except String (Expr × ParserState)
  | 0, _ => .error outOfFuelMsg
  | fuel + 1, s => do
      let (e, s) ← parseLiteralExpr fuel s
      if isTk s .dot then
        parseSuffixExpr fuel e s
      else
        .ok (e, s)

/-- HLSLParser::ParseLiteralExpr. -/
def parseLiteralExpr : Nat → ParserState → Except String (Expr × ParserState)
  | 0, _ => .error outOfFuelMsg
  | _ + 1, s =>
      if !(isLiteral s) then
        .error "expected literal expression"
      else do
        let (t, s) ← acceptIt s
        .ok (.literal (tokenToDataType t.type) t.spell, s)

/-- HLSLParser::ParseTypeNameOrFunctionCallExpr. -/
def parseTypeNameOrFunctionCallExpr : Nat → ParserState → Except String (Expr × ParserState)
  | 0, _ => .error outOfFuelMsg
  | fuel + 1, s =>
      if !(isDataType s) && !(isTk s .structKw) then
        .error "expected type name or function call expression"
      else do
        let (td, s) ← parseTypeDenoter fuel false s
        if isTk s .lBracket then
          parseFunctionCallExpr fuel none (some td) s
        else
          .ok (.typeName td, s)

/-- HLSLParser::ParseUnaryExpr. -/
def parseUnaryExpr : Nat → ParserState → Except String (Expr × ParserState)
  | 0, _ => .error outOfFuelMsg
  | fuel + 1, s =>
      if !(isTk s .unaryOp) && !(isArithmeticUnaryExpr s) then
        .error "expected unary expression operator"
      else do
        let (t, s) ← acceptIt s
        let (e, s) ← parsePrimaryExpr fuel s
        .ok (.unary (stringToUnaryOp t.spell) e, s)

/-- HLSLParser::ParseBracketOrCastExpr: the parenthesized expression,
re-enabling the angle operators while inside the brackets; the result is
a cast expression consuming one more primary expression exactly when the
inner expression is a cast left-hand side per the type-name symbol
table, and a bracket expression (with optional array access and suffix)
otherwise. -/
def parseBracketOrCastExpr : Nat → ParserState → Except String (Expr × ParserState)
  | 0, _ => .error outOfFuelMsg
  | fuel + 1, s => do
      let (_, s) ← accept TokenType.lBracket s
      let (e, s) ←
        if activeTemplate s then do
          let s := pushParsingState false s
          let (e, s) ← parseExpr fuel true none s
          pure (e, popParsingState s)
        else
          parseExpr fuel true none s
      let (_, s) ← accept TokenType.rBracket s
      match makeToTypeNameIfLhsOfCastExpr s e with
      | some typeNameExpr => do
          let (operand, s) ← parsePrimaryExpr fuel s
          .ok (.cast typeNameExpr operand, s)
      | none => do
          let e := Expr.bracket e
          let (e, s) ←
            if isTk s .lParen then parseArrayAccessExpr fuel e s
            else pure (e, s)
          if isTk s .dot then
            parseSuffixExpr fuel e s
          else
            .ok (e, s)

/-- HLSLParser::ParseSuffixExpr. -/
def parseSuffixExpr : Nat → Expr → ParserState → Except String (Expr × ParserState)
  | 0, _, _ => .error outOfFuelMsg
  | fuel + 1, e, s => do
      let (_, s) ← accept TokenType.dot s
      let (varIdent, s) ← parseVarIdent fuel s
      .ok (.suffix e varIdent, s)

/-- HLSLParser::ParseArrayAccessExpr. -/
def parseArrayAccessExpr : Nat → Expr → ParserState → Except String (Expr × ParserState)
  | 0, _, _ => .error outOfFuelMsg
  | fuel + 1, e, s => do
      let (arrayIndices, s) ← parseArrayDimensionList fuel false s
      .ok (.arrayAccess e arrayIndices, s)

/-- HLSLParser::ParseVarAccessOrFunctionCallExpr. -/
def parseVarAccessOrFunctionCallExpr : Nat → ParserState → Except String (Expr × ParserState)
  | 0, _ => .error outOfFuelMsg
  | fuel + 1, s => do
      let (varIdent, s) ← parseVarIdent fuel s
      if isTk s .lBracket then
        parseFunctionCallExpr fuel (some varIdent) none s
      else
        parseVarAccessExpr fuel (some varIdent) s

/-- HLSLParser::ParseVarAccessExpr. -/
def parseVarAccessExpr : Nat → Option VarIdent → ParserState →
    Except String (Expr × ParserState)
  | 0, _, _ => .error outOfFuelMsg
  | fuel + 1, varIdent, s => do
      let (vi, s) ←
        match varIdent with
        | some vi => pure (vi, s)
        | none => parseVarIdent fuel s
      if isTk s .assignOp then do
        let (t, s) ← acceptIt s
        let (assignE, s) ← parseExpr fuel false none s
        .ok (.varAccess vi (some (stringToAssignOp t.spell)) (some assignE), s)
      else
        .ok (.varAccess vi none none, s)

/-- HLSLParser::ParseFunctionCallExpr: the call, then optional array
access and suffix. -/
def parseFunctionCallExpr : Nat → Option VarIdent → Option TypeDenoter → ParserState →
    Except String (Expr × ParserState)
  | 0, _, _, _ => .error outOfFuelMsg
  | fuel + 1, varIdent, typeDenoter, s => do
      let (call, s) ←
        match typeDenoter with
        | some td => parseFunctionCallTypeDenoter fuel td s
        | none => parseFunctionCallVarIdent fuel varIdent s
      let e := Expr.functionCallExpr call
      let (e, s) ←
        if isTk s .lParen then parseArrayAccessExpr fuel e s
        else pure (e, s)
      if isTk s .dot then
        parseSuffixExpr fuel e s
      else
        .ok (e, s)

/-- HLSLParser::ParseFunctionCall (variable-identifier form). -/
def parseFunctionCallVarIdent : Nat → Option VarIdent → ParserState →
    Except String (FunctionCall × ParserState)
  | 0, _, _ => .error outOfFuelMsg
  | fuel + 1, varIdent, s => do
      let (vi, s) ←
        match varIdent with
        | some vi => pure (vi, s)
        | none =>
            if isDataType s then do
              let (t, s) ← acceptIt s
              pure (VarIdent.mk t.spell [] none, s)
            else
              parseVarIdent fuel s
      let (args, s) ← parseArgumentList fuel s
      .ok (.mk (some vi) none args, s)

/-- HLSLParser::ParseFunctionCall (type-denoter form). -/
def parseFunctionCallTypeDenoter : Nat → TypeDenoter → ParserState →
    Except String (FunctionCall × ParserState)
  | 0, _, _ => .error outOfFuelMsg
  | fuel + 1, td, s => do
      let (args, s) ← parseArgumentList fuel s
      .ok (.mk none (some td) args, s)

/-- HLSLParser::ParseArgumentList. -/
def parseArgumentList : Nat → ParserState → Except String (List Expr × ParserState)
  | 0, _ => .error outOfFuelMsg
  | fuel + 1, s => do
      let (_, s) ← accept TokenType.lBracket s
      let (exprs, s) ← parseExprList fuel TokenType.rBracket false s
      let (_, s) ← accept TokenType.rBracket s
      .ok (exprs, s)

/-- HLSLParser::ParseInitializerExpr. -/
def parseInitializerExpr : Nat → ParserState → Except String (Expr × ParserState)
  | 0, _ => .error outOfFuelMsg
  | fuel + 1, s => do
      let (_, s) ← accept TokenType.lCurly s
      let (exprs, s) ← parseExprList fuel TokenType.rCurly true s
      let (_, s) ← accept TokenType.rCurly s
      .ok (.initializer exprs, s)

/-- HLSLParser::ParseExprList. -/
def parseExprList : Nat → TokenType → Bool → ParserState →
    Except String (List Expr × ParserState)
  | 0, _, _, _ => .error outOfFuelMsg
  | fuel + 1, terminator, allowLastComma, s =>
      if isTk s terminator then
        .ok ([], s)
      else
        parseExprListBody fuel terminator allowLastComma s

/-- The loop inside HLSLParser::ParseExprList. -/
def parseExprListBody : Nat → TokenType → Bool → ParserState →
    Except String (List Expr × ParserState)
  | 0, _, _, _ => .error outOfFuelMsg
  | fuel + 1, terminator, allowLastComma, s => do
      let (e, s) ← parseExpr fuel false none s
      if isTk s .comma then do
        let (_, s) ← acceptIt s
        if allowLastComma && isTk s terminator then
          .ok ([e], s)
        else do
          let (es, s) ← parseExprListBody fuel terminator allowLastComma s
          .ok (e :: es, s)
      else
        .ok ([e], s)

/-- HLSLParser::ParseAndEvaluateConstExpr: parse an expression, then
evaluate it with a callback that rejects every variable access; an
evaluation failure is reported as a parser error. -/
def parseAndEvaluateConstExpr : Nat → ParserState → Except String (Variant × ParserState)
  | 0, _ => .error outOfFuelMsg
  | fuel + 1, s => do
      let (e, s) ← parseExpr fuel false none s
      match evaluateExpr (fun _ => .error "expected constant expression") e with
      | .ok v => .ok (v, s)
      | .error msg => .error msg

end

/-! ## Token and state constructors for concrete runs -/

def tkId (s : String) : Token := ⟨.ident, s⟩

def tkIntL (s : String) : Token := ⟨.intLiteral, s⟩

def tkLBr : Token := ⟨.lBracket, "("⟩

def tkRBr : Token := ⟨.rBracket, ")"⟩

def tkSemi : Token := ⟨.semicolon, ";"⟩

def tkBin (s : String) : Token := ⟨.binaryOp, s⟩

def tkAssign (s : String) : Token := ⟨.assignOp, s⟩

def tkUn (s : String) : Token := ⟨.unaryOp, s⟩

def tkDot : Token := ⟨.dot, "."⟩

def tkTypedef : Token := ⟨.typedefKw, "typedef"⟩

def tkScalar (s : String) : Token := ⟨.scalarType, s⟩

def tkLCu : Token := ⟨.lCurly, "\x7b"⟩

def tkRCu : Token := ⟨.rCurly, "\x7d"⟩

/-- The pre-defined type aliases registered by
HLSLParser::GeneratePreDefinedTypeAliases at program start. -/
def preDefinedTypeAliases : List (DataType × String) :=
  [(.intT, "DWORD"), (.floatT, "FLOAT"), (.float4, "VECTOR"),
   (.float4x4, "MATRIX"), (.stringT, "STRING")]

/-- The parser state at the start of HLSLParser::ParseProgram: the
global scope is opened and the pre-defined type aliases are
registered. -/
def initialParserState (tokens : List Token) : ParserState :=
  preDefinedTypeAliases.foldl (fun s p => registerTypeName p.2 s)
    (openScope ⟨tokens, [], [], []⟩)

/-- The token stream of a code block holding the two statements
typedef int X; and (X)-(1); . -/
def castDemoWithTypedef : List Token :=
  [tkLCu, tkTypedef, tkScalar "int", tkId "X", tkSemi,
   tkLBr, tkId "X", tkRBr, tkBin "-", tkLBr, tkIntL "1", tkRBr, tkSemi, tkRCu]

/-- The token stream of a code block holding only the statement
(X)-(1); . -/
def castDemoWithoutTypedef : List Token :=
  [tkLCu, tkLBr, tkId "X", tkRBr, tkBin "-", tkLBr, tkIntL "1", tkRBr, tkSemi, tkRCu]

/-! # Verification of the claims -/

/-! ## Shared helper lemmas -/

theorem intrinsicConversionLoop_eq_self (intr : Intrinsic) (n : Nat) :
    ∀ l : List IntrinsicConversion,
      (∀ c ∈ l, ¬(intr = c.standardIntrinsic ∧ n = c.numArgs)) →
      intrinsicConversionLoop intr n l = intr := by
  intro l
  induction l with
  | nil => intro _; rfl
  | cons c cs ih =>
      intro h
      have hc := h c (by simp)
      simp only [intrinsicConversionLoop, if_neg hc]
      exact ih fun d hd => h d (by simp [hd])

theorem markEntryPoints_flag_iff (entryPoint : String) (decls : List FunctionDeclEntry)
    (hInit : ∀ d ∈ decls, d.isEntryPoint = false) :
    ∀ d ∈ markEntryPoints entryPoint decls, (d.isEntryPoint = true ↔ d.ident = entryPoint) := by
  intro d hd
  obtain ⟨d0, hd0, rfl⟩ := List.mem_map.mp hd
  by_cases h : d0.ident = entryPoint
  · simp [visitFunctionDeclMark, h]
  · simp [visitFunctionDeclMark, h, hInit d0 hd0]

theorem markEntryPoints_count (entryPoint : String) (decls : List FunctionDeclEntry)
    (hInit : ∀ d ∈ decls, d.isEntryPoint = false) :
    (markEntryPoints entryPoint decls).countP (fun d => d.isEntryPoint) =
      decls.countP (fun d => d.ident = entryPoint) := by
  induction decls with
  | nil => rfl
  | cons a l ih =>
      have ha := hInit a (by simp)
      have ihl := ih fun d hd => hInit d (by simp [hd])
      simp only [markEntryPoints] at ihl ⊢
      rw [List.map_cons, List.countP_cons, List.countP_cons, ihl]
      by_cases h : a.ident = entryPoint <;>
        simp [visitFunctionDeclMark, h, ha]

theorem countP_ident_le_one_of_pairwise (entryPoint : String) (decls : List FunctionDeclEntry)
    (hp : decls.Pairwise fun a b => a.ident ≠ b.ident) :
    decls.countP (fun d => d.ident = entryPoint) ≤ 1 := by
  induction decls with
  | nil => simp
  | cons a l ih =>
      cases hp with
      | cons ha hl =>
          by_cases h : a.ident = entryPoint
          · have hzero : l.countP (fun d => d.ident = entryPoint) = 0 := by
              apply List.countP_eq_zero.mpr
              intro b hb
              simp only [decide_eq_true_eq]
              intro hb2
              exact (ha b hb) (h.trans hb2.symm)
            simp [List.countP_cons, h, hzero]
          · simp [List.countP_cons, h]
            exact ih hl

theorem bufferSlotTargetErrors_mem :
    ∀ (regs : List Register) (start i : Nat) (r : Register),
      regs[i]? = some r → r.shaderTarget ≠ ShaderTarget.undefined →
      BufferSlotError.targetSpecific (start + i) ∈ bufferSlotTargetErrors start regs := by
  intro regs
  induction regs with
  | nil => intro start i r h; simp at h
  | cons a l ih =>
      intro start i r h hr
      cases i with
      | zero =>
          simp only [List.getElem?_cons_zero, Option.some.injEq] at h
          subst h
          simp [bufferSlotTargetErrors, hr]
      | succ j =>
          simp only [List.getElem?_cons_succ] at h
          have := ih (start + 1) j r h hr
          have harith : start + 1 + j = start + (j + 1) := by omega
          rw [harith] at this
          simp [bufferSlotTargetErrors]
          exact this

theorem bufferSlotTargetErrors_eq_nil :
    ∀ (regs : List Register),
      (∀ r ∈ regs, r.shaderTarget = ShaderTarget.undefined) →
      ∀ start, bufferSlotTargetErrors start regs = [] := by
  intro regs
  induction regs with
  | nil => intro _ _; rfl
  | cons a l ih =>
      intro h start
      have ha := h a (by simp)
      simp [bufferSlotTargetErrors, ha, ih fun r hr => h r (by simp [hr])]

/-! ## Claim C1 -/

theorem parseExpr_single_ident (f : Nat) (x : String) (rest : List Token)
    (tns : List (List String)) (ats : List Bool) (ws : List String) :
    parseExpr (f + 1 + 1 + 1 + 1 + 1 + 1 + 1) true none
        ⟨tkId x :: tkRBr :: rest, tns, ats, ws⟩ =
      .ok (.varAccess (.mk x [] none) none none, ⟨tkRBr :: rest, tns, ats, ws⟩) := by
  simp [parseExpr, parseGenericExpr, parsePrimaryExpr, parseVarAccessOrFunctionCallExpr,
    parseVarIdent, parseIdent, parseArrayDimensionList, parseVarAccessExpr,
    parseBinaryExprRest, accept, acceptIt, isTk, isTkSpell, ParserState.tknType,
    ParserState.tknSpell, isLiteral, isDataType, isBaseDataType, isArithmeticUnaryExpr,
    tkId, tkRBr, bind, Except.bind, pure, Except.pure]

theorem parseBracketOrCastExpr_cast_of_registered (f : Nat) (s : ParserState) (x : String)
    (rest : List Token) (htk : s.tokens = tkLBr :: tkId x :: tkRBr :: rest)
    (htmpl : activeTemplate s = false) (hreg : isRegisteredTypeName s x = true) :
    parseBracketOrCastExpr (f + 1 + 1 + 1 + 1 + 1 + 1 + 1 + 1) s =
      Except.bind (parsePrimaryExpr (f + 1 + 1 + 1 + 1 + 1 + 1 + 1) { s with tokens := rest })
        (fun p => .ok (.cast (.typeName (.alias x)) p.1, p.2)) := by
  obtain ⟨tks, tns, ats, ws⟩ := s
  simp [activeTemplate] at htmpl
  simp only [isRegisteredTypeName] at hreg
  simp only at htk
  subst htk
  simp only [parseBracketOrCastExpr]
  simp [accept, acceptIt, isTk, ParserState.tknType, tkLBr, activeTemplate, htmpl,
    bind, Except.bind, pure, Except.pure]
  rw [parseExpr_single_ident]
  have hreg2 : ∃ l ∈ tns, x ∈ l := by simpa using hreg
  simp [accept, acceptIt, isTk, ParserState.tknType, tkRBr, bind, Except.bind, pure, Except.pure,
    makeToTypeNameIfLhsOfCastExpr, VarIdent.next, VarIdent.ident,
    isRegisteredTypeName, hreg2]

theorem parseBracketOrCastExpr_bracket_of_unregistered (f : Nat) (s : ParserState) (x : String)
    (rest : List Token) (htk : s.tokens = tkLBr :: tkId x :: tkRBr :: rest)
    (htmpl : activeTemplate s = false) (hreg : isRegisteredTypeName s x = false)
    (hLP : ({ s with tokens := rest } : ParserState).tknType ≠ TokenType.lParen)
    (hDot : ({ s with tokens := rest } : ParserState).tknType ≠ TokenType.dot) :
    parseBracketOrCastExpr (f + 1 + 1 + 1 + 1 + 1 + 1 + 1 + 1) s =
      .ok (.bracket (.varAccess (.mk x [] none) none none), { s with tokens := rest }) := by
  obtain ⟨tks, tns, ats, ws⟩ := s
  simp [activeTemplate] at htmpl
  simp only [isRegisteredTypeName] at hreg
  simp only [ParserState.tknType] at hLP hDot
  simp only at htk
  subst htk
  simp only [parseBracketOrCastExpr]
  simp [accept, acceptIt, isTk, ParserState.tknType, tkLBr, activeTemplate, htmpl,
    bind, Except.bind, pure, Except.pure]
  rw [parseExpr_single_ident]
  have hreg2 : ¬∃ l ∈ tns, x ∈ l := by simpa using hreg
  simp [accept, acceptIt, isTk, ParserState.tknType, tkRBr, bind, Except.bind, pure, Except.pure,
    makeToTypeNameIfLhsOfCastExpr, VarIdent.next, VarIdent.ident,
    isRegisteredTypeName, hreg2, hLP, hDot]

/-- Claim C1: a parenthesized expression whose inner form is a single
un-dotted identifier becomes the left-hand side of a cast expression
(consuming one more primary expression as the cast operand) iff the
identifier is registered in the type-name symbol table at the time of
parsing, and a bracket expression otherwise; in particular the code
block with typedef int X; parses (X)-(1); as a cast of -(1) to X, and
without the typedef the same bytes parse as a binary subtraction. -/
theorem claim_C1 :
    (∀ (s : ParserState) (x : String) (inds : List Expr) (aOp : Option AssignOp)
        (aExpr : Option Expr),
        makeToTypeNameIfLhsOfCastExpr s (.varAccess (.mk x inds none) aOp aExpr) =
          if isRegisteredTypeName s x then some (.typeName (.alias x)) else none)
  ∧ (∀ (s : ParserState) (x : String) (inds : List Expr) (nxt : VarIdent)
        (aOp : Option AssignOp) (aExpr : Option Expr),
        makeToTypeNameIfLhsOfCastExpr s (.varAccess (.mk x inds (some nxt)) aOp aExpr) = none)
  ∧ (∀ (f : Nat) (s : ParserState) (x : String) (rest : List Token),
        s.tokens = tkLBr :: tkId x :: tkRBr :: rest →
        activeTemplate s = false →
        isRegisteredTypeName s x = true →
        parseBracketOrCastExpr (f + 1 + 1 + 1 + 1 + 1 + 1 + 1 + 1) s =
          Except.bind
            (parsePrimaryExpr (f + 1 + 1 + 1 + 1 + 1 + 1 + 1) { s with tokens := rest })
            (fun p => .ok (.cast (.typeName (.alias x)) p.1, p.2)))
  ∧ (∀ (f : Nat) (s : ParserState) (x : String) (rest : List Token),
        s.tokens = tkLBr :: tkId x :: tkRBr :: rest →
        activeTemplate s = false →
        isRegisteredTypeName s x = false →
        ({ s with tokens := rest } : ParserState).tknType ≠ TokenType.lParen →
        ({ s with tokens := rest } : ParserState).tknType ≠ TokenType.dot →
        parseBracketOrCastExpr (f + 1 + 1 + 1 + 1 + 1 + 1 + 1 + 1) s =
          .ok (.bracket (.varAccess (.mk x [] none) none none), { s with tokens := rest }))
  ∧ ((parseCodeBlock 32 (initialParserState castDemoWithTypedef)).map Prod.fst =
        .ok [ .aliasDeclStmnt none [.mk "X" (.base .intT)],
              .exprStmnt (.cast (.typeName (.alias "X"))
                (.unary .negate (.bracket (.literal .intT "1")))) ])
  ∧ ((parseCodeBlock 32 (initialParserState castDemoWithoutTypedef)).map Prod.fst =
        .ok [ .exprStmnt (.binary .sub
                (.bracket (.varAccess (.mk "X" [] none) none none))
                (.bracket (.literal .intT "1"))) ]) := by
  refine ⟨?_, ?_, ?_, ?_, rfl, rfl⟩
  · intro s x inds aOp aExpr
    cases hreg : isRegisteredTypeName s x <;>
      simp [makeToTypeNameIfLhsOfCastExpr, VarIdent.next, VarIdent.ident, hreg]
  · intro s x inds nxt aOp aExpr
    simp [makeToTypeNameIfLhsOfCastExpr, VarIdent.next, VarIdent.ident]
  · exact parseBracketOrCastExpr_cast_of_registered
  · exact parseBracketOrCastExpr_bracket_of_unregistered

/-- Witness for claim C1 at concrete states: with X registered the
bracketed identifier continues as a cast over the next primary
expression, and with Y unregistered it is a bracket expression. -/
theorem claim_C1_witness :
    (isRegisteredTypeName ⟨[tkLBr, tkId "X", tkRBr, tkIntL "1"], [["X"]], [], []⟩ "X" = true)
    ∧ parseBracketOrCastExpr (0 + 1 + 1 + 1 + 1 + 1 + 1 + 1 + 1)
        ⟨[tkLBr, tkId "X", tkRBr, tkIntL "1"], [["X"]], [], []⟩ =
        Except.bind
          (parsePrimaryExpr (0 + 1 + 1 + 1 + 1 + 1 + 1 + 1)
            ⟨[tkIntL "1"], [["X"]], [], []⟩)
          (fun p => .ok (.cast (.typeName (.alias "X")) p.1, p.2))
    ∧ (isRegisteredTypeName ⟨[tkLBr, tkId "Y", tkRBr, tkSemi], [["X"]], [], []⟩ "Y" = false)
    ∧ parseBracketOrCastExpr (0 + 1 + 1 + 1 + 1 + 1 + 1 + 1 + 1)
        ⟨[tkLBr, tkId "Y", tkRBr, tkSemi], [["X"]], [], []⟩ =
        .ok (.bracket (.varAccess (.mk "Y" [] none) none none), ⟨[tkSemi], [["X"]], [], []⟩) :=
  ⟨by decide,
   claim_C1.2.2.1 0 ⟨[tkLBr, tkId "X", tkRBr, tkIntL "1"], [["X"]], [], []⟩ "X"
     [tkIntL "1"] rfl rfl (by decide),
   by decide,
   claim_C1.2.2.2.1 0 ⟨[tkLBr, tkId "Y", tkRBr, tkSemi], [["X"]], [], []⟩ "Y"
     [tkSemi] rfl rfl (by decide) (by decide) (by decide)⟩

/-! ## Claim C2 -/

/-- Claim C2: the analyzer records the intrinsic id from the static
dispatch table and upgrades it per the fixed (base intrinsic, argument
count) table: AsUInt with 3 arguments becomes AsUInt_3; Tex1D, Tex2D,
Tex3D and TexCube with 4 arguments become the explicit-LOD variants;
Texture.Load with 2 or 3 arguments becomes Load_2 or Load_3;
Texture.Sample with 3, 4 or 5 becomes Sample_3, Sample_4 or Sample_5;
SampleBias and SampleCmp with 4, 5 or 6 arguments become the
corresponding variants; SampleGrad with 5, 6 or 7 and SampleLevel with
4 or 5 likewise; any other argument count keeps the base id, and the
first matching table row wins. -/
theorem claim_C2 :
    (∀ sm msm n, (analyzeFunctionCallIntrinsic sm msm .asUInt_1 n).1 =
        if n = 3 then .asUInt_3 else .asUInt_1)
  ∧ (∀ sm msm n, (analyzeFunctionCallIntrinsic sm msm .tex1D_2 n).1 =
        if n = 4 then .tex1D_4 else .tex1D_2)
  ∧ (∀ sm msm n, (analyzeFunctionCallIntrinsic sm msm .tex2D_2 n).1 =
        if n = 4 then .tex2D_4 else .tex2D_2)
  ∧ (∀ sm msm n, (analyzeFunctionCallIntrinsic sm msm .tex3D_2 n).1 =
        if n = 4 then .tex3D_4 else .tex3D_2)
  ∧ (∀ sm msm n, (analyzeFunctionCallIntrinsic sm msm .texCube_2 n).1 =
        if n = 4 then .texCube_4 else .texCube_2)
  ∧ (∀ sm msm n, (analyzeFunctionCallIntrinsic sm msm .texture_Load_1 n).1 =
        if n = 2 then .texture_Load_2 else if n = 3 then .texture_Load_3 else .texture_Load_1)
  ∧ (∀ sm msm n, (analyzeFunctionCallIntrinsic sm msm .texture_Sample_2 n).1 =
        if n = 3 then .texture_Sample_3 else if n = 4 then .texture_Sample_4 else
        if n = 5 then .texture_Sample_5 else .texture_Sample_2)
  ∧ (∀ sm msm n, (analyzeFunctionCallIntrinsic sm msm .texture_SampleBias_3 n).1 =
        if n = 4 then .texture_SampleBias_4 else if n = 5 then .texture_SampleBias_5 else
        if n = 6 then .texture_SampleBias_6 else .texture_SampleBias_3)
  ∧ (∀ sm msm n, (analyzeFunctionCallIntrinsic sm msm .texture_SampleCmp_3 n).1 =
        if n = 4 then .texture_SampleCmp_4 else if n = 5 then .texture_SampleCmp_5 else
        if n = 6 then .texture_SampleCmp_6 else .texture_SampleCmp_3)
  ∧ (∀ sm msm n, (analyzeFunctionCallIntrinsic sm msm .texture_SampleGrad_4 n).1 =
        if n = 5 then .texture_SampleGrad_5 else if n = 6 then .texture_SampleGrad_6 else
        if n = 7 then .texture_SampleGrad_7 else .texture_SampleGrad_4)
  ∧ (∀ sm msm n, (analyzeFunctionCallIntrinsic sm msm .texture_SampleLevel_3 n).1 =
        if n = 4 then .texture_SampleLevel_4 else if n = 5 then .texture_SampleLevel_5 else
        .texture_SampleLevel_3)
  ∧ (∀ sm msm intr n,
        (∀ c ∈ intrinsicConversions, ¬(intr = c.standardIntrinsic ∧ n = c.numArgs)) →
        (analyzeFunctionCallIntrinsic sm msm intr n).1 = intr) := by
  refine ⟨?_, ?_, ?_, ?_, ?_, ?_, ?_, ?_, ?_, ?_, ?_, ?_⟩ <;>
  first
    | (intro sm msm intr n h
       simpa [analyzeFunctionCallIntrinsic] using
         intrinsicConversionLoop_eq_self intr n intrinsicConversions h)
    | (intro sm msm n
       simp [analyzeFunctionCallIntrinsic, intrinsicConversionLoop, intrinsicConversions])

/-- Witness for claim C2 at a concrete instance of its conditional
part: the Clip intrinsic with one argument matches no table row and
keeps its id. -/
theorem claim_C2_witness :
    (∀ c ∈ intrinsicConversions, ¬(Intrinsic.clip = c.standardIntrinsic ∧ 1 = c.numArgs)) ∧
    (analyzeFunctionCallIntrinsic (5, 0) (4, 0) .clip 1).1 = .clip :=
  ⟨by decide, claim_C2.2.2.2.2.2.2.2.2.2.2.2 (5, 0) (4, 0) .clip 1 (by decide)⟩

/-! ## Claim C3 -/

/-- Claim C3: requesting output version GLSL 1.10 or GLSL 1.20 makes
CompileShader fail with a configuration error (the invalid_argument
raised before any stage, modelled as an error value rather than a
crash), with no pipeline stage having run; every other output version
passes this validation and reaches the pipeline. -/
theorem claim_C3 :
    (∀ oc, compileShaderPrimary false false .glsl110 oc =
        .error ("output shader version GLSL 1.10 is not supported", []))
  ∧ (∀ oc, compileShaderPrimary false false .glsl120 oc =
        .error ("output shader version GLSL 1.20 is not supported", []))
  ∧ (∀ (v : OutputShaderVersion) (oc : CompileOutcomes),
        v ≠ OutputShaderVersion.glsl110 → v ≠ OutputShaderVersion.glsl120 →
        ∃ b stages, compileShaderPrimary false false v oc = .ok (b, stages)) := by
  refine ⟨fun _ => rfl, fun _ => rfl, ?_⟩
  intro v oc h1 h2
  simp only [compileShaderPrimary, Bool.false_eq_true, if_false, if_neg h1, if_neg h2]
  split_ifs <;> exact ⟨_, _, rfl⟩

/-- Witness for claim C3: GLSL 1.30 passes the version validation. -/
theorem claim_C3_witness :
    (OutputShaderVersion.glsl130 ≠ OutputShaderVersion.glsl110) ∧
    (OutputShaderVersion.glsl130 ≠ OutputShaderVersion.glsl120) ∧
    ∃ b stages,
      compileShaderPrimary false false .glsl130 ⟨true, true, true, true, false, false⟩ =
        .ok (b, stages) :=
  ⟨by decide, by decide, claim_C3.2.2 .glsl130 _ (by decide) (by decide)⟩

/-! ## Claim C4 -/

/-- Claim C4: the parse stage returns a null program iff it recorded at
least one Error report; a report log holding only warnings keeps the
program; and on a normal return the stage hands back all reports it
collected rather than stopping at the first one (a thrown report is
appended to the log as an Error). -/
theorem claim_C4 :
    (∀ {α : Type} (outcome : ParseProgramOutcome α),
        ((parseSource outcome).1 = none ↔ hasErros (parseSource outcome).2 = true))
  ∧ (∀ {α : Type} (reports : List Report) (ast : α),
        (∀ r ∈ reports, r.typ ≠ ReportType.error) →
        parseSource (ParseProgramOutcome.normal reports ast) = (some ast, reports))
  ∧ (∀ {α : Type} (reports : List Report) (message : String),
        parseSource (ParseProgramOutcome.thrown (α := α) message reports) =
          (none, reports ++ [⟨ReportType.error, message⟩])) := by
  refine ⟨?_, ?_, ?_⟩
  · intro α outcome
    cases outcome with
    | normal reports ast =>
        cases h : hasErros reports <;> simp [parseSource, h]
    | thrown message reports =>
        simp [parseSource, hasErros]
  · intro α reports ast h
    have hfalse : hasErros reports = false := by
      rw [← Bool.not_eq_true, hasErros, List.any_eq_true]
      rintro ⟨r, hr, hrE⟩
      exact h r hr (by simpa using hrE)
    simp [parseSource, hfalse]
  · intro α reports message
    rfl

/-- Witness for claim C4: a single warning does not fail the stage. -/
theorem claim_C4_witness :
    (∀ r ∈ [Report.mk .warning "w"], r.typ ≠ ReportType.error) ∧
    parseSource (ParseProgramOutcome.normal (α := Nat) [⟨.warning, "w"⟩] 7) =
      (some 7, [⟨.warning, "w"⟩]) :=
  ⟨by decide, claim_C4.2.1 [⟨.warning, "w"⟩] 7 (by decide)⟩

/-! ## Claim C5 -/

/-- Claim C5: an SV_Position semantic on a declaration is rewritten to
VertexPosition with its index preserved iff the shader target is the
vertex shader; under the fragment shader it stays SV_Position; and a
variable access whose declaration carries the position semantic sets
the fragment-coordinate flag when the target is the fragment shader.
Any other semantic, or any other target, leaves the semantic
unchanged. -/
theorem claim_C5 :
    (∀ (target : ShaderTarget) (idx : Nat),
        (analyzeSemantic target ⟨.position, idx⟩ = ⟨.vertexPosition, idx⟩ ↔
          target = ShaderTarget.vertexShader))
  ∧ (∀ idx : Nat, analyzeSemantic .fragmentShader ⟨.position, idx⟩ = ⟨.position, idx⟩)
  ∧ (∀ flag : Bool, analyzeVarIdentFragCoordFlag .fragmentShader .position flag = true)
  ∧ (∀ (target : ShaderTarget) (sem : Semantic) (idx : Nat),
        ¬(sem = Semantic.position ∧ target = ShaderTarget.vertexShader) →
        analyzeSemantic target ⟨sem, idx⟩ = ⟨sem, idx⟩) := by
  refine ⟨?_, fun _ => rfl, fun _ => rfl, ?_⟩
  · intro target idx
    cases target <;> simp [analyzeSemantic]
  · intro target sem idx h
    simp [analyzeSemantic, h]

/-- Witness for claim C5 at a concrete non-position semantic on a
non-vertex target, which the analyzer leaves unchanged. -/
theorem claim_C5_witness :
    ¬(Semantic.userDefined "TEXCOORD" = Semantic.position ∧
        ShaderTarget.geometryShader = ShaderTarget.vertexShader) ∧
    analyzeSemantic .geometryShader ⟨.userDefined "TEXCOORD", 2⟩ =
      ⟨.userDefined "TEXCOORD", 2⟩ :=
  ⟨by decide, claim_C5.2.2.2 .geometryShader (.userDefined "TEXCOORD") 2 (by decide)⟩

/-! ## Claim C6 -/

/-- Counterexample for claim C6 as stated: with two function
declarations both named like the entry point (for instance an overload
pair), the analyzer marks isEntryPoint on both of them, so the flag is
not limited to at most one declaration per compilation. -/
theorem claim_C6_counterexample :
    ¬ ((markEntryPoints "main" [⟨"main", false⟩, ⟨"main", false⟩]).countP
        (fun d => d.isEntryPoint) ≤ 1) := by
  decide

/-- Claim C6 (amended): the isEntryPoint flag is set exactly on the
visited function declarations whose identifier equals the configured
entry-point name, and never on a declaration with another identifier;
hence when no two function declarations share the entry-point name, at
most one declaration carries the flag (with same-named overloads of the
entry point, each of them is flagged). -/
theorem claim_C6 :
    ∀ (entryPoint : String) (decls : List FunctionDeclEntry),
      (∀ d ∈ decls, d.isEntryPoint = false) →
      ((∀ d ∈ markEntryPoints entryPoint decls, (d.isEntryPoint = true ↔ d.ident = entryPoint))
        ∧ ((decls.Pairwise fun a b => a.ident ≠ b.ident) →
            (markEntryPoints entryPoint decls).countP (fun d => d.isEntryPoint) ≤ 1)) := by
  intro entryPoint decls hInit
  refine ⟨markEntryPoints_flag_iff entryPoint decls hInit, ?_⟩
  intro hp
  rw [markEntryPoints_count entryPoint decls hInit]
  exact countP_ident_le_one_of_pairwise entryPoint decls hp

/-- Witness for claim C6 at a concrete compilation with two distinct
function names. -/
theorem claim_C6_witness :
    (∀ d ∈ markEntryPoints "main" [⟨"main", false⟩, ⟨"f", false⟩],
        (d.isEntryPoint = true ↔ d.ident = "main"))
    ∧ (markEntryPoints "main" [⟨"main", false⟩, ⟨"f", false⟩]).countP
        (fun d => d.isEntryPoint) ≤ 1 :=
  ⟨(claim_C6 "main" [⟨"main", false⟩, ⟨"f", false⟩] (by decide)).1,
   (claim_C6 "main" [⟨"main", false⟩, ⟨"f", false⟩] (by decide)).2 (by decide)⟩

/-! ## Claim C7 -/

/-- Claim C7: after preprocessing the parser accepts only line
directives: a line directive followed by an integer literal and a
string literal reassigns the source origin so that the next physical
line reports exactly the given row and all subsequent tokens report the
given filename; any other directive identifier is an error, as is a
line directive not followed by an integer literal. -/
theorem claim_C7 :
    (∀ (ident : String) (tokens : List Token) (currentLine : Int) (origin : SourceOrigin),
        ident ≠ "line" →
        processDirective ident tokens currentLine origin =
          .error "only line-directives are allowed after pre-processing")
  ∧ (∀ (spellN filename : String) (rest : List Token) (physRow : Int) (origin : SourceOrigin),
        processDirective "line" (⟨.intLiteral, spellN⟩ :: ⟨.stringLiteral, filename⟩ :: rest)
            (reportedRow origin physRow) origin =
          .ok (nextSourceOrigin origin filename
                 (fromStringInt spellN - reportedRow origin physRow - 1), rest)
        ∧ (nextSourceOrigin origin filename
             (fromStringInt spellN - reportedRow origin physRow - 1)).filename = filename
        ∧ reportedRow (nextSourceOrigin origin filename
             (fromStringInt spellN - reportedRow origin physRow - 1)) (physRow + 1) =
            fromStringInt spellN)
  ∧ (∀ (t : Token) (tokens : List Token) (currentLine : Int) (origin : SourceOrigin),
        t.type ≠ TokenType.intLiteral →
        processDirective "line" (t :: tokens) currentLine origin =
          .error "unexpected token: expected int literal") := by
  refine ⟨?_, ?_, ?_⟩
  · intro ident tokens currentLine origin h
    simp [processDirective, h]
  · intro spellN filename rest physRow origin
    refine ⟨rfl, rfl, ?_⟩
    simp only [reportedRow, nextSourceOrigin]
    ring
  · intro t tokens currentLine origin h
    simp [processDirective, h]

/-- Witness for claim C7: an include directive after preprocessing is
an error, and so is a malformed line directive. -/
theorem claim_C7_witness :
    ("include" ≠ "line") ∧
    processDirective "include" [] 5 ⟨"a.hlsl", 0⟩ =
      .error "only line-directives are allowed after pre-processing" ∧
    (Token.mk .ident "x").type ≠ TokenType.intLiteral ∧
    processDirective "line" [⟨.ident, "x"⟩] 5 ⟨"a.hlsl", 0⟩ =
      .error "unexpected token: expected int literal" :=
  ⟨by decide,
   claim_C7.1 "include" [] 5 ⟨"a.hlsl", 0⟩ (by decide),
   by decide,
   claim_C7.2.2 ⟨.ident, "x"⟩ [] 5 ⟨"a.hlsl", 0⟩ (by decide)⟩

/-! ## Claim C8 -/

theorem variantDiv_error_of_zero (a b : Variant) (h : variantIsZero b = true) :
    variantDiv a b = .error divisionByZeroMsg := by
  cases a <;> cases b <;>
    simp_all [variantIsZero, variantDiv, Variant.isReal, Variant.toInt, Variant.toReal]

theorem variantMod_error_of_zero (a b : Variant) (h : variantIsZero b = true) :
    variantMod a b = .error divisionByZeroMsg := by
  cases a <;> cases b <;>
    simp_all [variantIsZero, variantMod, Variant.isReal, Variant.toInt, Variant.toReal]

/-- Claim C8: a constant binary division or remainder whose divisor
evaluates to zero makes the evaluator report an error instead of
producing a value; with a non-zero divisor the integer quotient and
remainder follow the 64-bit truncating semantics and the real quotient
the exact real division. -/
theorem claim_C8 :
    ∀ (cb : OnVarAccessCallback) (l r : Expr) (vl vr : Variant),
      visitE cb l [] = .ok [vl] →
      visitE cb r [vl] = .ok [vr, vl] →
      ((variantIsZero vr = true →
          evaluateExpr cb (.binary .div l r) = .error divisionByZeroMsg ∧
          evaluateExpr cb (.binary .mod l r) = .error divisionByZeroMsg)
        ∧ (∀ il ir : Int, vl = .intV il → vr = .intV ir → ir ≠ 0 →
            evaluateExpr cb (.binary .div l r) = .ok (.intV (wrap64 (Int.tdiv il ir))) ∧
            evaluateExpr cb (.binary .mod l r) = .ok (.intV (wrap64 (Int.tmod il ir))))
        ∧ (∀ ql qr : ℚ, vl = .realV ql → vr = .realV qr → qr ≠ 0 →
            evaluateExpr cb (.binary .div l r) = .ok (.realV (ql / qr)))) := by
  intro cb l r vl vr h1 h2
  have hEval : ∀ op, evaluateExpr cb (.binary op l r) = evalBinaryOp op vl vr := by
    intro op
    cases hop : evalBinaryOp op vl vr <;>
      simp [evaluateExpr, visitE, h1, h2, evalPop, hop, bind, Except.bind, pure, Except.pure]
  refine ⟨?_, ?_, ?_⟩
  · intro hz
    rw [hEval, hEval]
    exact ⟨variantDiv_error_of_zero vl vr hz, variantMod_error_of_zero vl vr hz⟩
  · intro il ir hl hr hz
    subst hl
    subst hr
    rw [hEval, hEval]
    simp [evalBinaryOp, variantDiv, variantMod, Variant.isReal, Variant.toInt, hz]
  · intro ql qr hl hr hz
    subst hl
    subst hr
    rw [hEval]
    simp [evalBinaryOp, variantDiv, Variant.isReal, Variant.toReal, hz]

/-- Witness for claim C8: 7 divided by the literal 0 reports the
division-by-zero error, and 7 divided by 2 yields 3. -/
theorem claim_C8_witness :
    evaluateExpr (fun _ => .error "expected constant expression")
        (.binary .div (.literal .intT "7") (.literal .intT "0")) = .error divisionByZeroMsg
    ∧ evaluateExpr (fun _ => .error "expected constant expression")
        (.binary .mod (.literal .intT "7") (.literal .intT "0")) = .error divisionByZeroMsg
    ∧ evaluateExpr (fun _ => .error "expected constant expression")
        (.binary .div (.literal .intT "7") (.literal .intT "2")) = .ok (.intV 3) := by
  have h0 := claim_C8 (fun _ => .error "expected constant expression")
      (.literal .intT "7") (.literal .intT "0") (.intV 7) (.intV 0) rfl rfl
  have h2 := claim_C8 (fun _ => .error "expected constant expression")
      (.literal .intT "7") (.literal .intT "2") (.intV 7) (.intV 2) rfl rfl
  refine ⟨(h0.1 rfl).1, (h0.1 rfl).2, ?_⟩
  have h3 := (h2.2.1 7 2 rfl rfl (by decide)).1
  have h4 : wrap64 (Int.tdiv 7 2) = 3 := by decide
  rw [h4] at h3
  exact h3

/-! ## Claim C9 -/

theorem ok_bind {ε α β : Type} (a : α) (f : α → Except ε β) :
    (Except.ok a : Except ε α) >>= f = f a := rfl

theorem bind_eq_ok {ε α β : Type} {x : Except ε α} {f : α → Except ε β} {b : β}
    (h : x >>= f = .ok b) : ∃ a, x = .ok a ∧ f a = .ok b := by
  cases x with
  | error e => simp [Bind.bind, Except.bind] at h
  | ok a => exact ⟨a, rfl, by simpa [Bind.bind, Except.bind] using h⟩

theorem parseExprStmnt_ok_shape (f : Nat) (vi : Option VarIdent) (s : ParserState)
    (res : Stmnt × ParserState) (h : parseExprStmnt f vi s = .ok res) :
    ∃ e s2, res = (.exprStmnt e, s2) := by
  cases f with
  | zero => simp [parseExprStmnt] at h
  | succ f =>
      simp only [parseExprStmnt] at h
      cases vi with
      | none =>
          obtain ⟨p, _, h⟩ := bind_eq_ok h
          obtain ⟨q, _, h⟩ := bind_eq_ok h
          simp only [Except.ok.injEq] at h
          exact ⟨p.1, q.2, h.symm⟩
      | some vi0 =>
          obtain ⟨p, _, h⟩ := bind_eq_ok h
          obtain ⟨q, _, h⟩ := bind_eq_ok h
          simp only [Except.ok.injEq] at h
          exact ⟨p.1, q.2, h.symm⟩

/-- Counterexample for claim C9 as stated: a statement starting with a
dotted identifier that is followed by none of the three dispatch tokens
is a syntax error rather than a variable declaration statement, so the
otherwise-case does not always produce a declaration. -/
theorem claim_C9_counterexample :
    (parseStmnt 32 (initialParserState [tkId "a", tkDot, tkId "b", tkId "c", tkSemi])).map
        Prod.fst =
      .error "expected variable declaration, assignment or function call statement" := rfl

/-- Claim C9 (amended): a statement starting with an identifier first
parses a VarIdent (possibly dotted, with array indices) and then
chooses by the next token: an opening parenthesis yields a
function-call expression statement, an assignment operator yields an
assignment expression statement, the operators ++ and -- yield a
post-unary expression statement, and otherwise, when the parsed
VarIdent is a single un-dotted identifier, it becomes the type denoter
of a variable declaration statement (its array indices becoming array
dimensions); a dotted identifier followed by none of those tokens is a
syntax error. -/
theorem claim_C9 :
    (∀ (f : Nat) (s s1 : ParserState) (vi : VarIdent) (res : Stmnt × ParserState),
        parseVarIdent f s = .ok (vi, s1) →
        s1.tknType = TokenType.lBracket →
        parseVarDeclOrAssignOrFunctionCallStmnt (f + 1) s = .ok res →
        ∃ e s2, res = (.exprStmnt e, s2))
  ∧ (∀ (f : Nat) (s s1 : ParserState) (vi : VarIdent) (res : Stmnt × ParserState),
        parseVarIdent f s = .ok (vi, s1) →
        s1.tknType = TokenType.assignOp →
        parseVarDeclOrAssignOrFunctionCallStmnt (f + 1) s = .ok res →
        ∃ op e s2, res = (.exprStmnt (.varAccess vi (some op) (some e)), s2))
  ∧ (∀ (f : Nat) (s s1 : ParserState) (vi : VarIdent) (res : Stmnt × ParserState),
        parseVarIdent f s = .ok (vi, s1) →
        s1.tknType = TokenType.unaryOp →
        (s1.tknSpell = "++" ∨ s1.tknSpell = "--") →
        parseVarDeclOrAssignOrFunctionCallStmnt (f + 1) s = .ok res →
        ∃ e s2, res = (.exprStmnt e, s2))
  ∧ (∀ (f : Nat) (s s1 : ParserState) (ident : String) (inds : List Expr)
        (res : Stmnt × ParserState),
        parseVarIdent f s = .ok (.mk ident inds none, s1) →
        s1.tknType ≠ TokenType.lBracket →
        s1.tknType ≠ TokenType.assignOp →
        ¬(s1.tknType = TokenType.unaryOp ∧ (s1.tknSpell = "++" ∨ s1.tknSpell = "--")) →
        parseVarDeclOrAssignOrFunctionCallStmnt (f + 1) s = .ok res →
        ∃ varDecls s2, res =
          (.varDeclStmnt [] [] none
            (some (.mk none
              (if inds.isEmpty then TypeDenoter.alias ident
               else .array (.alias ident) inds))) varDecls, s2))
  ∧ (∀ (f : Nat) (s s1 : ParserState) (ident : String) (inds : List Expr) (nxt : VarIdent),
        parseVarIdent f s = .ok (.mk ident inds (some nxt), s1) →
        s1.tknType ≠ TokenType.lBracket →
        s1.tknType ≠ TokenType.assignOp →
        ¬(s1.tknType = TokenType.unaryOp ∧ (s1.tknSpell = "++" ∨ s1.tknSpell = "--")) →
        parseVarDeclOrAssignOrFunctionCallStmnt (f + 1) s =
          .error "expected variable declaration, assignment or function call statement")
  ∧ ((parseStmnt 32 (initialParserState [tkId "f", tkLBr, tkRBr, tkSemi])).map Prod.fst =
        .ok (.exprStmnt (.functionCallExpr (.mk (some (.mk "f" [] none)) none []))))
  ∧ ((parseStmnt 32 (initialParserState [tkId "x", tkAssign "=", tkIntL "1", tkSemi])).map
        Prod.fst =
        .ok (.exprStmnt (.varAccess (.mk "x" [] none) (some .set) (some (.literal .intT "1")))))
  ∧ ((parseStmnt 32 (initialParserState [tkId "x", tkUn "++", tkSemi])).map Prod.fst =
        .ok (.exprStmnt (.postUnary (.varAccess (.mk "x" [] none) none none) .inc)))
  ∧ ((parseStmnt 32 (initialParserState [tkId "T", tkId "y", tkSemi])).map Prod.fst =
        .ok (.varDeclStmnt [] [] none (some (.mk none (.alias "T")))
              [.mk "y" [] none none [] none])) := by
  have hcond : ∀ (s1 : ParserState),
      s1.tknType ≠ TokenType.lBracket →
      s1.tknType ≠ TokenType.assignOp →
      ¬(s1.tknType = TokenType.unaryOp ∧ (s1.tknSpell = "++" ∨ s1.tknSpell = "--")) →
      (isTk s1 .lBracket = false ∧ isTk s1 .assignOp = false ∧
        ((isTkSpell s1 .unaryOp "++" || isTkSpell s1 .unaryOp "--") = false)) := by
    intro s1 h1 h2 h3
    refine ⟨by simp [isTk, h1], by simp [isTk, h2], ?_⟩
    by_cases ht : s1.tknType = TokenType.unaryOp
    · have hs1 : s1.tknSpell ≠ "++" := fun hh => h3 ⟨ht, Or.inl hh⟩
      have hs2 : s1.tknSpell ≠ "--" := fun hh => h3 ⟨ht, Or.inr hh⟩
      simp [isTkSpell, hs1, hs2]
    · simp [isTkSpell, ht]
  refine ⟨?_, ?_, ?_, ?_, ?_, rfl, rfl, rfl, rfl⟩
  · intro f s s1 vi res hvi hb hres
    simp only [parseVarDeclOrAssignOrFunctionCallStmnt, hvi, ok_bind] at hres
    rw [show isTk s1 .lBracket = true by simp [isTk, hb]] at hres
    simp only [if_true] at hres
    obtain ⟨p, _, hres⟩ := bind_eq_ok hres
    obtain ⟨q, _, hres⟩ := bind_eq_ok hres
    obtain ⟨w, _, hres⟩ := bind_eq_ok hres
    simp only [Except.ok.injEq] at hres
    exact ⟨q.1, w.2, hres.symm⟩
  · intro f s s1 vi res hvi hb hres
    simp only [parseVarDeclOrAssignOrFunctionCallStmnt, hvi, ok_bind] at hres
    rw [show isTk s1 .lBracket = false by simp [isTk, hb]] at hres
    rw [show isTk s1 .assignOp = true by simp [isTk, hb]] at hres
    simp only [if_true, Bool.false_eq_true, if_false] at hres
    obtain ⟨p, _, hres⟩ := bind_eq_ok hres
    obtain ⟨q, _, hres⟩ := bind_eq_ok hres
    obtain ⟨w, _, hres⟩ := bind_eq_ok hres
    simp only [Except.ok.injEq] at hres
    exact ⟨stringToAssignOp p.1.spell, q.1, w.2, hres.symm⟩
  · intro f s s1 vi res hvi hb hsp hres
    simp only [parseVarDeclOrAssignOrFunctionCallStmnt, hvi, ok_bind] at hres
    rw [show isTk s1 .lBracket = false by simp [isTk, hb]] at hres
    rw [show isTk s1 .assignOp = false by simp [isTk, hb]] at hres
    rw [show (isTkSpell s1 .unaryOp "++" || isTkSpell s1 .unaryOp "--") = true by
      rcases hsp with h | h <;> simp [isTkSpell, hb, h]] at hres
    simp only [Bool.false_eq_true, if_false, if_true] at hres
    exact parseExprStmnt_ok_shape f (some vi) s1 res hres
  · intro f s s1 ident inds res hvi h1 h2 h3 hres
    obtain ⟨e1, e2, e3⟩ := hcond s1 h1 h2 h3
    simp only [parseVarDeclOrAssignOrFunctionCallStmnt, hvi, ok_bind, e1, e2, e3,
      Bool.false_eq_true, if_false] at hres
    obtain ⟨p, _, hres⟩ := bind_eq_ok hres
    obtain ⟨q, _, hres⟩ := bind_eq_ok hres
    simp only [Except.ok.injEq] at hres
    exact ⟨p.1, q.2, hres.symm⟩
  · intro f s s1 ident inds nxt hvi h1 h2 h3
    obtain ⟨e1, e2, e3⟩ := hcond s1 h1 h2 h3
    simp only [parseVarDeclOrAssignOrFunctionCallStmnt, hvi, ok_bind, e1, e2, e3,
      Bool.false_eq_true, if_false]

/-- Witness for claim C9: the general branch statements applied to the
concrete statements f(); and T y; . -/
theorem claim_C9_witness :
    (∃ e s2,
      ((.exprStmnt (.functionCallExpr (.mk (some (.mk "f" [] none)) none [])),
          ⟨[], [["STRING", "MATRIX", "VECTOR", "FLOAT", "DWORD"]], [], []⟩) :
        Stmnt × ParserState) = (.exprStmnt e, s2))
    ∧ (∃ varDecls s2,
      ((.varDeclStmnt [] [] none (some (.mk none (.alias "T"))) [.mk "y" [] none none [] none],
          ⟨[], [["STRING", "MATRIX", "VECTOR", "FLOAT", "DWORD"]], [], []⟩) :
        Stmnt × ParserState) =
        (.varDeclStmnt [] [] none
          (some (.mk none
            (if ([] : List Expr).isEmpty then TypeDenoter.alias "T"
             else .array (.alias "T") []))) varDecls, s2)) :=
  ⟨claim_C9.1 31 (initialParserState [tkId "f", tkLBr, tkRBr, tkSemi])
      ⟨[tkLBr, tkRBr, tkSemi], [["STRING", "MATRIX", "VECTOR", "FLOAT", "DWORD"]], [], []⟩
      (.mk "f" [] none) _ rfl rfl rfl,
   claim_C9.2.2.2.1 31 (initialParserState [tkId "T", tkId "y", tkSemi])
      ⟨[tkId "y", tkSemi], [["STRING", "MATRIX", "VECTOR", "FLOAT", "DWORD"]], [], []⟩
      "T" [] _ rfl (by decide) (by decide) (by decide) rfl⟩

/-! ## Claim C10 -/

/-- Claim C10: for a uniform-buffer declaration the analyzer reports an
error pointing at the second slot register when more than one is
attached, reports an error for every slot register naming a specific
shader target, and accepts a buffer with at most one
non-target-specific slot register without errors. -/
theorem claim_C10 :
    ∀ slotRegisters : List Register,
      (1 < slotRegisters.length →
        BufferSlotError.multipleSlots 1 ∈ visitBufferDeclStmntErrors slotRegisters)
      ∧ (∀ (i : Nat) (r : Register), slotRegisters[i]? = some r →
          r.shaderTarget ≠ ShaderTarget.undefined →
          BufferSlotError.targetSpecific i ∈ visitBufferDeclStmntErrors slotRegisters)
      ∧ (slotRegisters.length ≤ 1 →
          (∀ r ∈ slotRegisters, r.shaderTarget = ShaderTarget.undefined) →
          visitBufferDeclStmntErrors slotRegisters = []) := by
  intro slotRegisters
  refine ⟨?_, ?_, ?_⟩
  · intro h
    simp [visitBufferDeclStmntErrors, h]
  · intro i r hget hr
    have := bufferSlotTargetErrors_mem slotRegisters 0 i r hget hr
    simp only [Nat.zero_add] at this
    simp [visitBufferDeclStmntErrors]
    exact this
  · intro hlen hall
    have h1 : ¬ (1 < slotRegisters.length) := by omega
    simp [visitBufferDeclStmntErrors, h1,
      bufferSlotTargetErrors_eq_nil slotRegisters hall 0]

/-- Witness for claim C10 at a concrete buffer with two slot registers,
the second of which is vertex-shader specific. -/
theorem claim_C10_witness :
    (1 < ([⟨.undefined, .constantBuffer, 0⟩, ⟨.vertexShader, .constantBuffer, 1⟩] :
        List Register).length)
    ∧ BufferSlotError.multipleSlots 1 ∈
        visitBufferDeclStmntErrors
          [⟨.undefined, .constantBuffer, 0⟩, ⟨.vertexShader, .constantBuffer, 1⟩]
    ∧ BufferSlotError.targetSpecific 1 ∈
        visitBufferDeclStmntErrors
          [⟨.undefined, .constantBuffer, 0⟩, ⟨.vertexShader, .constantBuffer, 1⟩]
    ∧ visitBufferDeclStmntErrors [⟨.undefined, .constantBuffer, 3⟩] = [] :=
  ⟨by decide,
   (claim_C10 _).1 (by decide),
   (claim_C10 _).2.1 1 ⟨.vertexShader, .constantBuffer, 1⟩ (by decide) (by decide),
   (claim_C10 _).2.2 (by decide) (by decide)⟩

end Xsc
